import Mathlib

set_option maxHeartbeats 1000000
set_option maxRecDepth 8000

/-!
Verification development for the `upgear` self-update library
(`src/index.ts`).  The effectful TypeScript pipeline is shallowly
embedded as pure Lean functions over an explicit `World` (environment,
clock, timestamp store, filesystem, registry response and failure
oracles for the network / tar / per-file copy operations).  Machine
integers (`Date.now()`, interval milliseconds) are modelled as `Int`;
the npm `semver` parsing and precedence used by `isUpdateNeeded` is
embedded directly.
-/

namespace Upgear

/-! ### Character/list helpers (used by the semver parser and path model) -/

/-- Digits `0`-`9` to their numeric value, `natOfDigits ['4','2'] = 42`. -/
def natOfDigits (cs : List Char) : Nat :=
  cs.foldl (fun n c => n * 10 + (c.toNat - 48)) 0

/-- Split a character list at every occurrence of `sep`
(like `String.prototype.split` in JS: keeps empty fields). -/
def splitSep (sep : Char) : List Char → List (List Char)
  | [] => [[]]
  | c :: cs =>
    let r := splitSep sep cs
    if c = sep then [] :: r
    else
      match r with
      | h :: t => (c :: h) :: t
      | [] => [[c]]

/-- Split at the first occurrence of `sep`; `none` if `sep` is absent. -/
def splitFirst (sep : Char) : List Char → List Char × Option (List Char)
  | [] => ([], none)
  | c :: cs =>
    if c = sep then ([], some cs)
    else
      let r := splitFirst sep cs
      (c :: r.1, r.2)

/-- Whitespace recognised by the JS `String.prototype.trim` used in
`new SemVer(version.trim())` (common code points). -/
def isJsSpace (c : Char) : Bool :=
  c = ' ' || c = '\t' || c = '\n' || c = '\r' || c = '\x0b' || c = '\x0c' ||
  c = ' ' || c = '﻿'

/-- Trim leading and trailing JS whitespace. -/
def trimJs (cs : List Char) : List Char :=
  ((cs.dropWhile isJsSpace).reverse.dropWhile isJsSpace).reverse

/-! ### Semantic versions (npm `semver` package, strict mode)

`semver.valid` accepts `v?MAJOR.MINOR.PATCH(-prerelease)?(+build)?`
with numeric identifiers free of leading zeros and bounded by
`Number.MAX_SAFE_INTEGER`; build metadata is validated but ignored for
precedence. -/

/-- `Number.MAX_SAFE_INTEGER` (2^53 - 1). -/
def maxSafeInteger : Nat := 9007199254740991

/-- A prerelease identifier: the `SemVer` constructor keeps
all-digit identifiers below `MAX_SAFE_INTEGER` as numbers and
everything else as strings. -/
inductive PreId where
  | num (n : Nat)
  | str (s : String)
deriving DecidableEq, Repr

/-- Parsed semantic version (build metadata dropped: it never affects
precedence). -/
structure SemVer where
  major : Nat
  minor : Nat
  patch : Nat
  prerelease : List PreId
deriving DecidableEq, Repr

/-- `NUMERICIDENTIFIER`: nonempty, all digits, no leading zero. -/
def isNumericIdent (cs : List Char) : Bool :=
  !cs.isEmpty && cs.all (·.isDigit) && (cs = ['0'] || cs.head? ≠ some '0')

/-- A `major`/`minor`/`patch` component; values above
`MAX_SAFE_INTEGER` make the constructor throw, hence `none`. -/
def parseMainNum (cs : List Char) : Option Nat :=
  if isNumericIdent cs then
    let v := natOfDigits cs
    if v ≤ maxSafeInteger then some v else none
  else none

/-- Characters allowed in prerelease/build identifiers: `[0-9A-Za-z-]`. -/
def isIdentChar (c : Char) : Bool := c.isDigit || c.isAlpha || c = '-'

/-- Parse one prerelease identifier (numeric without leading zeros, or
alphanumeric containing at least one non-digit). -/
def parsePreIdent (cs : List Char) : Option PreId :=
  if cs.isEmpty then none
  else if !cs.all isIdentChar then none
  else if cs.all (·.isDigit) then
    if cs = ['0'] || cs.head? ≠ some '0' then
      let v := natOfDigits cs
      if v < maxSafeInteger then some (.num v) else some (.str ⟨cs⟩)
    else none
  else some (.str ⟨cs⟩)

/-- Parse a dot-separated prerelease identifier list. -/
def parsePreIdents : List (List Char) → Option (List PreId)
  | [] => some []
  | c :: cs =>
    match parsePreIdent c, parsePreIdents cs with
    | some i, some is => some (i :: is)
    | _, _ => none

/-- `BUILDIDENTIFIER`: nonempty over `[0-9A-Za-z-]` (leading zeros allowed). -/
def isBuildIdent (cs : List Char) : Bool := !cs.isEmpty && cs.all isIdentChar

/-- `semver.valid` / the `SemVer` constructor in strict mode:
trim, 256-char bound, optional leading `v`, `major.minor.patch`,
optional prerelease and build parts. Returns the parsed version. -/
def parseSemVer (s : String) : Option SemVer :=
  let t0 := trimJs s.data
  if t0.length > 256 then none
  else
    let t1 := match t0 with
      | 'v' :: rest => rest
      | _ => t0
    let cb := splitFirst '+' t1
    let buildOk := match cb.2 with
      | none => true
      | some b => (splitSep '.' b).all isBuildIdent
    if !buildOk then none
    else
      let mp := splitFirst '-' cb.1
      match splitSep '.' mp.1 with
      | [ma, mi, pa] =>
        match parseMainNum ma, parseMainNum mi, parseMainNum pa with
        | some M, some m, some p =>
          match mp.2 with
          | none => some ⟨M, m, p, []⟩
          | some pr =>
            match parsePreIdents (splitSep '.' pr) with
            | some ids => some ⟨M, m, p, ids⟩
            | none => none
        | _, _, _ => none
      | _ => none

/-- Numeric comparison as an `Ordering`. -/
def cmpN (a b : Nat) : Ordering :=
  if a < b then .lt else if b < a then .gt else .eq

/-- JS string relational comparison (code-unit lexicographic; the
identifiers compared are ASCII so code points coincide). -/
def cmpCharsL : List Char → List Char → Ordering
  | [], [] => .eq
  | [], _ :: _ => .lt
  | _ :: _, [] => .gt
  | a :: as, b :: bs =>
    if a < b then .lt else if b < a then .gt else cmpCharsL as bs

/-- `compareIdentifiers`: numbers numerically, a number is below any
string, strings by JS relational comparison. -/
def cmpPreId : PreId → PreId → Ordering
  | .num a, .num b => cmpN a b
  | .num _, .str _ => .lt
  | .str _, .num _ => .gt
  | .str a, .str b => cmpCharsL a.data b.data

/-- Compare prerelease identifier lists element-wise; running out
first means smaller. -/
def cmpPreLists : List PreId → List PreId → Ordering
  | [], [] => .eq
  | [], _ :: _ => .lt
  | _ :: _, [] => .gt
  | a :: as, b :: bs =>
    match cmpPreId a b with
    | .eq => cmpPreLists as bs
    | o => o

/-- `comparePre`: a version with prerelease precedes the same version
without one; otherwise element-wise. -/
def cmpPre : List PreId → List PreId → Ordering
  | [], [] => .eq
  | [], _ :: _ => .gt
  | _ :: _, [] => .lt
  | a :: as, b :: bs => cmpPreLists (a :: as) (b :: bs)

/-- `semver.compare`: main triple then prerelease precedence. -/
def compareSemVer (a b : SemVer) : Ordering :=
  match cmpN a.major b.major with
  | .eq =>
    match cmpN a.minor b.minor with
    | .eq =>
      match cmpN a.patch b.patch with
      | .eq => cmpPre a.prerelease b.prerelease
      | o => o
    | o => o
  | o => o

/-- `semver.gt` on parsed versions. -/
def semverGt (a b : SemVer) : Bool := compareSemVer a b = .gt

/-- `semver.valid(s) !== null`. -/
def semverValidB (s : String) : Bool := (parseSemVer s).isSome

/-- `semver.gt` on version strings (false when either fails to parse;
in the source it is only reached on valid input). -/
def semverGtStr (a b : String) : Bool :=
  match parseSemVer a, parseSemVer b with
  | some x, some y => semverGt x y
  | _, _ => false

/-- `isUpdateNeeded` (src/index.ts:361-383): both versions must parse
as strict semver, then `semver.gt(latest, current)`. -/
def isUpdateNeeded (currentVersion latestVersion : String) : Bool :=
  match parseSemVer currentVersion, parseSemVer latestVersion with
  | some c, some l => semverGt l c
  | _, _ => false

/-! ### Paths and filesystem model

The filesystem is a flat association list from full path strings to a
node kind.  `pathe.join` is modelled as `/`-separated concatenation
(the inputs the library joins are already normalised). -/

/-- Kind of a filesystem node. -/
inductive NodeKind where
  | file
  | dir
deriving DecidableEq, Repr

/-- Flat filesystem: existing paths with their kind (first entry wins). -/
abbrev FS := List (String × NodeKind)

/-- `pathe.join a b`. -/
def strJoin (a b : String) : String := ⟨a.data ++ '/' :: b.data⟩

/-- Boolean list prefix test. -/
def isPrefixL : List Char → List Char → Bool
  | [], _ => true
  | _ :: _, [] => false
  | a :: as, b :: bs => a = b && isPrefixL as bs

/-- `p` lies strictly below directory `d` (i.e. `d ++ "/"` prefixes `p`). -/
def underDir (d p : String) : Bool := isPrefixL (d.data ++ ['/']) p.data

/-- First-match lookup of a path. -/
def fsLookup : FS → String → Option NodeKind
  | [], _ => none
  | e :: es, p => if e.1 = p then some e.2 else fsLookup es p

/-- `fs.existsSync`. -/
def fsExists (fs : FS) (p : String) : Bool := (fsLookup fs p).isSome

/-- `fs.statSync(p).isDirectory()` (false when absent or a file). -/
def fsIsDir (fs : FS) (p : String) : Bool :=
  match fsLookup fs p with
  | some .dir => true
  | _ => false

/-- Remove a single path entry (`fs.unlinkSync`). -/
def fsRemove : FS → String → FS
  | [], _ => []
  | e :: es, p => if e.1 = p then fsRemove es p else e :: fsRemove es p

/-- Create/overwrite a path with a kind (file write or `mkdirSync`). -/
def fsSet (fs : FS) (p : String) (k : NodeKind) : FS := (p, k) :: fsRemove fs p

/-- Remove a directory and everything below it (`deleteDirRecursive`,
src/index.ts:823-840). -/
def fsRemoveTree : FS → String → FS
  | [], _ => []
  | e :: es, d =>
    if e.1 = d || underDir d e.1 then fsRemoveTree es d
    else e :: fsRemoveTree es d

/-- The name of `p` as an immediate child of directory `d`
(`none` when `p` is not an immediate child). -/
def childName (d p : String) : Option String :=
  if underDir d p then
    let r := p.data.drop (d.data.length + 1)
    if r.contains '/' then none else some ⟨r⟩
  else none

/-- `fs.readdirSync d`: names of immediate children recorded in the
filesystem. -/
def childrenOf (fs : FS) (d : String) : List String :=
  fs.filterMap (fun e => childName d e.1)

/-- Deep copy of the subtree at `src` to `dst`
(`fs.cpSync(src, dst, recursive)` / `fs.copyFileSync`). -/
def copyTree (fs : FS) (src dst : String) : FS :=
  let sub := fs.filter (fun e => e.1 = src || underDir src e.1)
  sub.foldl
    (fun acc e =>
      if e.1 = src then fsSet acc dst e.2
      else fsSet acc (⟨dst.data ++ e.1.data.drop src.data.length⟩) e.2)
    fs

/-- `pathe.dirname`: everything before the last `/` (the argument
itself when no slash occurs, a case the library never hits). -/
def strDirname (p : String) : String :=
  match (p.data.reverse.dropWhile (fun c => !(c = '/'))) with
  | [] => p
  | _ :: rest => ⟨rest.reverse⟩

/-- True when the filesystem holds no entry at `d` nor below it. -/
def noEntryUnder (fs : FS) (d : String) : Bool :=
  fs.all (fun e => !(e.1 = d || underDir d e.1))

/-! ### Registry data model (src/index.ts:78-135) -/

/-- Raw `upgear` object inside a version record (`UpgearConfig`);
`Option` fields model absent JS properties. -/
structure UpgearConfig where
  files : Option (List String)
  needReinstall : Option Bool
  changelogUrl : Option String
deriving DecidableEq, Repr

/-- One entry of `metadata.versions`; `tarball = none` models a
missing `dist`/`dist.tarball` (reading it throws, caught in
`extractVersionInfo`). -/
structure VersionRecord where
  tarball : Option String
  upgear : Option UpgearConfig
deriving DecidableEq, Repr

/-- `PackageMetadata`: dist-tags and per-version records. -/
structure PackageMetadata where
  distTags : List (String × String)
  versions : List (String × VersionRecord)
deriving DecidableEq, Repr

/-- First-match lookup in a string-keyed association list
(JS object property access). -/
def slookup {α : Type} : List (String × α) → String → Option α
  | [], _ => none
  | e :: es, k => if e.1 = k then some e.2 else slookup es k

/-- Validated upgear configuration carried forward by the pipeline. -/
structure UpgearConfigV where
  files : List String
  needReinstall : Bool
  changelogUrl : Option String
deriving DecidableEq, Repr

/-- `VersionInfo` (src/index.ts:120-135). -/
structure VersionInfo where
  version : String
  tarballUrl : String
  upgear : UpgearConfigV
deriving DecidableEq, Repr

/-- `extractVersionInfo` (src/index.ts:392-442): requires the version
record, a truthy tarball URL and an `upgear` object; prepends the
fixed core paths to the declared files (plain `Array.concat`). -/
def extractVersionInfo (metadata : PackageMetadata) (version : String) :
    Option VersionInfo :=
  match slookup metadata.versions version with
  | none => none
  | some versionData =>
    match versionData.tarball with
    | none => none
    | some tarballUrl =>
      if tarballUrl = "" then none
      else
        match versionData.upgear with
        | none => none
        | some cfg =>
          let files := ["dist", "package.json"] ++ cfg.files.getD []
          if files.isEmpty then none
          else
            some { version := version, tarballUrl := tarballUrl,
                   upgear := { files := files,
                               needReinstall := cfg.needReinstall.getD false,
                               changelogUrl := cfg.changelogUrl } }

/-! ### World, options and observable events -/

/-- Hex digit (uppercase, as `encodeURIComponent` produces). -/
def hexDigitChar (n : Nat) : Char :=
  if n < 10 then Char.ofNat (48 + n) else Char.ofNat (55 + n)

/-- Bytes `encodeURIComponent` leaves unescaped:
`A-Z a-z 0-9 - _ . ! ~ * ' ( )`. -/
def isUnreservedByte (b : UInt8) : Bool :=
  let n := b.toNat
  (65 ≤ n && n ≤ 90) || (97 ≤ n && n ≤ 122) || (48 ≤ n && n ≤ 57) ||
  n = 45 || n = 95 || n = 46 || n = 33 || n = 126 || n = 42 ||
  n = 39 || n = 40 || n = 41

/-- `encodeURIComponent`: percent-encode every non-unreserved UTF-8 byte. -/
def encodeURIComponent (s : String) : String :=
  ⟨(s.toUTF8.toList).foldr
    (fun b acc =>
      if isUnreservedByte b then Char.ofNat b.toNat :: acc
      else '%' :: hexDigitChar (b.toNat / 16) :: hexDigitChar (b.toNat % 16) :: acc)
    []⟩

/-- `buildPackageUrl` (src/index.ts:286-297). -/
def buildPackageUrl (packageName registryBase : String) : String :=
  let baseUrl := if registryBase.endsWith "/" then registryBase
                 else registryBase ++ "/"
  baseUrl ++ encodeURIComponent packageName

/-- Scratch paths (`UpdatePaths`, src/index.ts:140-150). -/
structure UpdatePaths where
  tarballPath : String
  extractDir : String
deriving DecidableEq, Repr

/-- `packageName.replace(/[^a-zA-Z0-9]/g, '_')`. -/
def sanitizePkgName (s : String) : String :=
  ⟨s.data.map (fun c => if c.isAlpha || c.isDigit then c else '_')⟩

/-- `createTempPaths` (src/index.ts:450-479): scratch names under the
system temp directory from package name, version and `Date.now()`. -/
def createTempPaths (packageName version : String) (now : Int) : UpdatePaths :=
  let base := sanitizePkgName packageName ++ "-" ++ version ++ "-" ++ toString now
  { tarballPath := strJoin "/tmp" (base ++ ".tgz"),
    extractDir := strJoin "/tmp" (base ++ "-extract") }

/-- Failures a stage can raise (JS exceptions thrown inside
`checkAndUpdate`'s try blocks). -/
inductive Err where
  | downloadFailed
  | tarExtractFailed
  | emptyExtraction
  | installDirMissing
  | displayError
deriving DecidableEq, Repr

/-- How a `checkAndUpdate` run ended. -/
inductive Exit where
  | skippedCI
  | skippedInterval
  | noMetadata
  | channelMissing
  | upToDate
  | invalidPolicy
  | reinstallNotified
  | updated
  | innerErrorCaught (e : Err)
  | outerErrorCaught (e : Err)
deriving DecidableEq, Repr

/-- Observable actions of one run, in execution order: log lines,
network requests, store and filesystem accesses. -/
inductive Event where
  | debugMsg (msg : String)
  | warnMsg (msg : String)
  | storeRead (name : String)
  | storeWrite (name : String)
  | fetchMetadataReq (url : String)
  | downloadReq (url : String)
  | policyExtraction (version : String)
  | fsWrite (path : String)
  | fsMkdir (path : String)
  | fsExtractEntries (dir : String)
  | fsUnlink (path : String)
  | fsRemoveTreeEv (path : String)
  | fsCopy (src dst : String)
  | wouldDownload (url path : String)
  | wouldExtract (tarball dir : String)
  | wouldBackup (src dst : String)
  | wouldCopy (src dst : String)
  | wouldDisplay (version : String)
  | backupSkippedMissing (path : String)
  | backupFailed (path : String)
  | copySourceMissing (src : String)
  | copyFailed (src dst : String)
  | displayed (version packageName : String) (needReinstall custom : Bool)
        (changelogUrl : Option String)
deriving DecidableEq, Repr

/-- Everything outside the function under test: environment variables,
the clock, the persisted timestamp store, the filesystem, the registry
response and failure oracles for the effectful steps. -/
structure World where
  env : List (String × String)
  now : Int
  store : Option (List (String × Int))
  fs : FS
  registry : Option PackageMetadata
  downloadOk : Bool
  tarExtractOk : Bool
  extracted : List (String × NodeKind)
  backupFailures : List String
  copyFailures : List String
  displayThrows : Bool

/-- `CheckAndUpdateOptions` (src/index.ts:13-76); `Option` fields model
omitted properties, `hasOnDisplay` whether a custom callback was given. -/
structure Options where
  debug : Bool
  version : String
  name : String
  registryBase : Option String
  channel : Option String
  skipOnCI : Option Bool
  updateCheckIntervalMs : Option Int
  dryRun : Option Bool
  installDir : Option String
  hasOnDisplay : Bool

/-- Options after the `??` defaulting at src/index.ts:883-894. -/
structure ResolvedOptions where
  debug : Bool
  version : String
  name : String
  registryBase : String
  channel : String
  skipOnCI : Bool
  updateCheckIntervalMs : Int
  dryRun : Bool
  installDir : Option String
  hasOnDisplay : Bool

/-- Apply the documented defaults. -/
def resolveOptions (opts : Options) : ResolvedOptions :=
  { debug := opts.debug, version := opts.version, name := opts.name,
    registryBase := opts.registryBase.getD "https://registry.npmjs.org",
    channel := opts.channel.getD "latest",
    skipOnCI := opts.skipOnCI.getD true,
    updateCheckIntervalMs := opts.updateCheckIntervalMs.getD 21600000,
    dryRun := opts.dryRun.getD false,
    installDir := opts.installDir,
    hasOnDisplay := opts.hasOnDisplay }

/-- Truthiness of an environment variable (a set but empty variable is
falsy in JS). -/
def envTruthy (env : List (String × String)) (k : String) : Bool :=
  match slookup env k with
  | some v => !(v = "")
  | none => false

/-- `isCI` (src/index.ts:198-210). -/
def isCI (env : List (String × String)) : Bool :=
  envTruthy env "CI" || envTruthy env "CONTINUOUS_INTEGRATION" ||
  envTruthy env "BUILD_NUMBER" || envTruthy env "GITHUB_ACTIONS"

/-- `readLastCheckTimestamp` (src/index.ts:230-246): 0 when the file is
absent/unreadable or the package has no entry. -/
def readLastCheckTimestamp (store : Option (List (String × Int)))
    (packageName : String) : Int :=
  match store with
  | none => 0
  | some data =>
    match slookup data packageName with
    | none => 0
    | some v => v

/-- Insert-or-replace an entry of the timestamp map. -/
def upsertTs (m : List (String × Int)) (name : String) (t : Int) :
    List (String × Int) :=
  match m with
  | [] => [(name, t)]
  | e :: es => if e.1 = name then (e.1, t) :: es else e :: upsertTs es name t

/-- Emit a debug log line when debug logging is on (`logger.debug`). -/
def dbg (debugOn : Bool) (msg : String) : List Event :=
  if debugOn then [.debugMsg msg] else []

/-! ### Pipeline stages -/

/-- Result of one `checkAndUpdate` run: final filesystem and store,
the event trace, the exit taken, the scratch paths of the attempt and
whether scratch files were ever created. -/
structure RunResult where
  fs : FS
  store : Option (List (String × Int))
  trace : List Event
  exit : Exit
  paths : Option UpdatePaths
  tempCreated : Bool
deriving Repr

/-- State carried by an exception to the top-level catch. -/
structure ThrowSt where
  fs : FS
  store : Option (List (String × Int))
  trace : List Event
  tempCreated : Bool
  paths : Option UpdatePaths
  err : Err

/-- `downloadTarball` (src/index.ts:489-564): dry run only logs; a
failed download removes any partially written file and throws. -/
def downloadTarball (w : World) (fs : FS) (url targetPath : String)
    (dryRun : Bool) : FS × List Event × Except Err Unit :=
  if dryRun then (fs, [.wouldDownload url targetPath], .ok ())
  else
    let targetDir := strDirname targetPath
    let md := if fsExists fs targetDir then (fs, ([] : List Event))
              else (fsSet fs targetDir .dir, [Event.fsMkdir targetDir])
    let ev0 := md.2 ++ [Event.downloadReq url]
    if w.downloadOk then
      (fsSet md.1 targetPath .file, ev0 ++ [Event.fsWrite targetPath], .ok ())
    else if fsExists md.1 targetPath then
      (fsRemove md.1 targetPath, ev0 ++ [Event.fsUnlink targetPath],
       .error .downloadFailed)
    else (md.1, ev0, .error .downloadFailed)

/-- `extractTarball` (src/index.ts:574-613): dry run only logs;
otherwise create the scratch directory, unpack, and treat an empty
result as a failure. -/
def extractTarball (w : World) (fs : FS) (tarballPath extractDir : String)
    (dryRun : Bool) : FS × List Event × Except Err Unit :=
  if dryRun then (fs, [.wouldExtract tarballPath extractDir], .ok ())
  else
    let md := if fsExists fs extractDir then (fs, ([] : List Event))
              else (fsSet fs extractDir .dir, [Event.fsMkdir extractDir])
    if !w.tarExtractOk then (md.1, md.2, .error .tarExtractFailed)
    else
      let fs2 := w.extracted.foldl
        (fun a e => fsSet a (strJoin extractDir e.1) e.2) md.1
      let ev2 := md.2 ++ [Event.fsExtractEntries extractDir]
      if (childrenOf fs2 extractDir).isEmpty then
        (fs2, ev2, .error .emptyExtraction)
      else (fs2, ev2, .ok ())

/-- One iteration of the `backupFiles` loop (src/index.ts:631-680):
skip missing targets, log in dry run, otherwise remove a stale backup
and copy the target to `<path>.bak`; a per-path error is logged and
swallowed. -/
def backupOne (w : World) (fs : FS) (installDir f : String) (dryRun : Bool) :
    FS × List Event :=
  let fullPath := strJoin installDir f
  let backupPath := fullPath ++ ".bak"
  if !fsExists fs fullPath then (fs, [.backupSkippedMissing fullPath])
  else if dryRun then (fs, [.wouldBackup fullPath backupPath])
  else if w.backupFailures.contains f then (fs, [.backupFailed fullPath])
  else
    let st1 := if fsExists fs backupPath then
        (if fsIsDir fs backupPath then
           (fsRemoveTree fs backupPath, [Event.fsRemoveTreeEv backupPath])
         else (fsRemove fs backupPath, [Event.fsUnlink backupPath]))
      else (fs, ([] : List Event))
    if fsIsDir st1.1 fullPath then
      let fsB := fsSet st1.1 backupPath .dir
      let kids := childrenOf fsB fullPath
      let fsC := kids.foldl
        (fun a k => copyTree a (strJoin fullPath k) (strJoin backupPath k)) fsB
      (fsC, st1.2 ++ [Event.fsMkdir backupPath, Event.fsCopy fullPath backupPath])
    else
      (fsSet st1.1 backupPath .file, st1.2 ++ [Event.fsCopy fullPath backupPath])

/-- `backupFiles` (src/index.ts:623-683): process every declared path. -/
def backupFiles (w : World) (fs : FS) (installDir : String) (dryRun : Bool) :
    List String → FS × List Event
  | [] => (fs, [])
  | f :: rest =>
    let r := backupOne w fs installDir f dryRun
    let r2 := backupFiles w r.1 installDir dryRun rest
    (r2.1, r.2 ++ r2.2)

/-- Source-root resolution of `copyUpdatedFiles` (src/index.ts:703-710):
use the `package` subdirectory when it exists as a directory, else the
extraction root. -/
def resolveSourceBase (fs : FS) (extractDir : String) : String :=
  let packageDir := strJoin extractDir "package"
  if fsExists fs packageDir && fsIsDir fs packageDir then packageDir
  else extractDir

/-- One iteration of the `copyUpdatedFiles` loop (src/index.ts:712-756):
skip sources missing from the archive, log in dry run, otherwise copy
(merging directories, replacing files); a per-path error is logged and
swallowed. -/
def copyOne (w : World) (fs : FS) (sourceBase installDir f : String)
    (dryRun : Bool) : FS × List Event :=
  let sourcePath := strJoin sourceBase f
  let destPath := strJoin installDir f
  if !fsExists fs sourcePath then (fs, [.copySourceMissing sourcePath])
  else if dryRun then (fs, [.wouldCopy sourcePath destPath])
  else if w.copyFailures.contains f then (fs, [.copyFailed sourcePath destPath])
  else
    let destDir := strDirname destPath
    let st1 := if fsExists fs destDir then (fs, ([] : List Event))
               else (fsSet fs destDir .dir, [Event.fsMkdir destDir])
    if fsIsDir st1.1 sourcePath then
      if fsExists st1.1 destPath && fsIsDir st1.1 destPath then
        (copyTree st1.1 sourcePath destPath,
         st1.2 ++ [Event.fsCopy sourcePath destPath])
      else
        let st2 := if fsExists st1.1 destPath then
            (fsRemove st1.1 destPath, [Event.fsUnlink destPath])
          else (st1.1, ([] : List Event))
        (copyTree st2.1 sourcePath destPath,
         st1.2 ++ st2.2 ++ [Event.fsCopy sourcePath destPath])
    else
      (fsSet st1.1 destPath .file, st1.2 ++ [Event.fsCopy sourcePath destPath])

/-- The `copyUpdatedFiles` loop over the declared paths, with the
source base fixed before the loop as in the source. -/
def copyFilesLoop (w : World) (fs : FS) (sourceBase installDir : String)
    (dryRun : Bool) : List String → FS × List Event
  | [] => (fs, [])
  | f :: rest =>
    let r := copyOne w fs sourceBase installDir f dryRun
    let r2 := copyFilesLoop w r.1 sourceBase installDir dryRun rest
    (r2.1, r.2 ++ r2.2)

/-- `copyUpdatedFiles` (src/index.ts:694-759). -/
def copyUpdatedFiles (w : World) (fs : FS) (files : List String)
    (extractDir installDir : String) (dryRun : Bool) : FS × List Event :=
  copyFilesLoop w fs (resolveSourceBase fs extractDir) installDir dryRun files

/-- `displayUpdateNotification` (src/index.ts:771-817): dry run only
logs; a supplied callback may throw (oracle `displayThrows`); the
default console rendering cannot. -/
def displayUpdateNotification (w : World) (version packageName : String)
    (needReinstall : Bool) (changelogUrl : Option String)
    (dryRun hasOnDisplay : Bool) : List Event × Except Err Unit :=
  if dryRun then ([.wouldDisplay version], .ok ())
  else if hasOnDisplay then
    if w.displayThrows then ([], .error .displayError)
    else ([.displayed version packageName needReinstall true changelogUrl], .ok ())
  else ([.displayed version packageName needReinstall false changelogUrl], .ok ())

/-- `cleanupTemporaryFiles` (src/index.ts:848-872): outside dry run,
delete the scratch tarball and the scratch extraction tree when they
exist. -/
def cleanupTemporaryFiles (fs : FS) (paths : Option UpdatePaths)
    (dryRun : Bool) : FS × List Event :=
  if dryRun then (fs, [])
  else
    match paths with
    | none => (fs, [])
    | some p =>
      let st1 := if fsExists fs p.tarballPath then
          (fsRemove fs p.tarballPath, [Event.fsUnlink p.tarballPath])
        else (fs, ([] : List Event))
      let st2 := if fsExists st1.1 p.extractDir then
          (fsRemoveTree st1.1 p.extractDir, [Event.fsRemoveTreeEv p.extractDir])
        else (st1.1, ([] : List Event))
      (st2.1, st1.2 ++ st2.2)

/-- The interval gate (src/index.ts:913-932): outside dry run with a
positive interval, skip when a prior check is recorded and the elapsed
time is below the interval.  Returns (skip?, events). -/
def intervalGate (o : ResolvedOptions) (w : World) : Bool × List Event :=
  if o.dryRun = false ∧ o.updateCheckIntervalMs > 0 then
    let lastCheckTime := readLastCheckTimestamp w.store o.name
    if lastCheckTime > 0 ∧ w.now - lastCheckTime < o.updateCheckIntervalMs then
      (true, [Event.storeRead o.name])
    else
      (false, [Event.storeRead o.name] ++
        dbg o.debug "Proceeding with update check")
  else (false, [])

/-- The inner try block of `checkAndUpdate` (src/index.ts:1003-1059):
download, extract, delete the tarball, require the installation
directory, back up, replace, notify.  Returns the filesystem, events,
whether scratch files were created, and the exception if one escaped. -/
def innerUpdateSection (w : World) (fs : FS) (o : ResolvedOptions)
    (vi : VersionInfo) (paths : UpdatePaths) :
    FS × List Event × Bool × Except Err Unit :=
  match downloadTarball w fs vi.tarballUrl paths.tarballPath o.dryRun with
  | (fs1, ev1, .error e) => (fs1, ev1, false, .error e)
  | (fs1, ev1, .ok _) =>
    let tempCreated := !o.dryRun
    match extractTarball w fs1 paths.tarballPath paths.extractDir o.dryRun with
    | (fs2, ev2, .error e) => (fs2, ev1 ++ ev2, tempCreated, .error e)
    | (fs2, ev2, .ok _) =>
      let st3 := if !o.dryRun && fsExists fs2 paths.tarballPath then
          (fsRemove fs2 paths.tarballPath, [Event.fsUnlink paths.tarballPath])
        else (fs2, ([] : List Event))
      match o.installDir with
      | none => (st3.1, ev1 ++ ev2 ++ st3.2, tempCreated, .error .installDirMissing)
      | some installDir =>
        if installDir = "" then
          (st3.1, ev1 ++ ev2 ++ st3.2, tempCreated, .error .installDirMissing)
        else
          let r4 := backupFiles w st3.1 installDir o.dryRun vi.upgear.files
          let r5 := copyUpdatedFiles w r4.1 vi.upgear.files paths.extractDir
            installDir o.dryRun
          match displayUpdateNotification w vi.version o.name
              vi.upgear.needReinstall vi.upgear.changelogUrl o.dryRun
              o.hasOnDisplay with
          | (ev6, .error e) =>
            (r5.1, ev1 ++ ev2 ++ st3.2 ++ r4.2 ++ r5.2 ++ ev6, tempCreated,
             .error e)
          | (ev6, .ok _) =>
            (r5.1, ev1 ++ ev2 ++ st3.2 ++ r4.2 ++ r5.2 ++ ev6, tempCreated,
             .ok ())

/-- The catch and finally around the inner update section
(src/index.ts:1060-1068): a caught exception logs the inner warning;
in either case, when scratch files were created they are cleaned up
and the created/paths state is reset.  Returns the filesystem, the
events, whether scratch files had been created, and the exit. -/
def innerCatchFinally (o : ResolvedOptions) (paths : UpdatePaths)
    (inner : FS × List Event × Bool × Except Err Unit) :
    FS × List Event × Bool × Exit :=
  match inner with
  | (fs1, evI, tempCreated, .ok _) =>
    let cl := if tempCreated then cleanupTemporaryFiles fs1 (some paths) o.dryRun
              else (fs1, ([] : List Event))
    (cl.1, evI ++ dbg o.debug "Update completed successfully" ++ cl.2,
     tempCreated, .updated)
  | (fs1, evI, tempCreated, .error e) =>
    let cl := if tempCreated then cleanupTemporaryFiles fs1 (some paths) o.dryRun
              else (fs1, ([] : List Event))
    (cl.1, evI ++ [.warnMsg "Error during update process:"] ++ cl.2,
     tempCreated, .innerErrorCaught e)

/-- The body of `checkAndUpdate` past the CI and interval gates
(src/index.ts:934-1068): record the timestamp, fetch metadata, resolve
the channel, decide, extract the policy, then either notify (reinstall)
or run the inner section with its catch and cleanup.  An `Except.error`
is an exception escaping to the top-level catch. -/
def mainPhase (o : ResolvedOptions) (w : World) (evPre : List Event) :
    Except ThrowSt RunResult :=
  let ts := if !o.dryRun then
      (some (upsertTs (w.store.getD []) o.name w.now), [Event.storeWrite o.name])
    else (w.store, ([] : List Event))
  let url := buildPackageUrl o.name o.registryBase
  let evA := evPre ++ ts.2 ++ [Event.fetchMetadataReq url]
  match w.registry with
  | none =>
    .ok ⟨w.fs, ts.1, evA ++ [.warnMsg ("Could not check for updates for " ++ o.name)],
         .noMetadata, none, false⟩
  | some metadata =>
    match slookup metadata.distTags o.channel with
    | none =>
      .ok ⟨w.fs, ts.1, evA ++ [.warnMsg ("Channel not found for " ++ o.name)],
           .channelMissing, none, false⟩
    | some latestVersion =>
      if latestVersion = "" then
        .ok ⟨w.fs, ts.1, evA ++ [.warnMsg ("Channel not found for " ++ o.name)],
             .channelMissing, none, false⟩
      else if !isUpdateNeeded o.version latestVersion then
        .ok ⟨w.fs, ts.1,
             evA ++ dbg o.debug "No update needed, already at the latest version",
             .upToDate, none, false⟩
      else
        let evP := evA ++ [Event.policyExtraction latestVersion]
        match extractVersionInfo metadata latestVersion with
        | none =>
          .ok ⟨w.fs, ts.1,
               evP ++ [.warnMsg "Cannot update: missing or invalid upgear configuration"],
               .invalidPolicy, none, false⟩
        | some versionInfo =>
          if versionInfo.upgear.needReinstall then
            match displayUpdateNotification w versionInfo.version o.name true
                versionInfo.upgear.changelogUrl o.dryRun o.hasOnDisplay with
            | (evD, .ok _) =>
              .ok ⟨w.fs, ts.1, evP ++ evD, .reinstallNotified, none, false⟩
            | (evD, .error e) => .error ⟨w.fs, ts.1, evP ++ evD, false, none, e⟩
          else
            let paths := createTempPaths o.name versionInfo.version w.now
            let ic := innerCatchFinally o paths (innerUpdateSection w w.fs o versionInfo paths)
            .ok ⟨ic.1, ts.1, evP ++ ic.2.1, ic.2.2.2, some paths, ic.2.2.1⟩

/-- The top-level catch and finally of `checkAndUpdate`
(src/index.ts:1069-1078): log a warning and, when scratch state
survived to this point, clean it up. -/
def outerCatch (o : ResolvedOptions) (t : ThrowSt) : RunResult :=
  let cl := if t.tempCreated then cleanupTemporaryFiles t.fs t.paths o.dryRun
            else (t.fs, ([] : List Event))
  ⟨cl.1, t.store, t.trace ++ [.warnMsg "Error during update check:"] ++ cl.2,
   .outerErrorCaught t.err, t.paths, t.tempCreated⟩

/-- `checkAndUpdate` (src/index.ts:880-1079) with the promise's
rejection state made explicit: an `Except.error` at this level would be
an unhandled rejection; the top-level catch converts every escaping
exception into a warning plus a normal return. -/
def checkAndUpdateE (opts : Options) (w : World) : Except Err RunResult :=
  let o := resolveOptions opts
  let ev0 := dbg o.debug "Starting update check with options:"
  if o.skipOnCI && isCI w.env then
    .ok ⟨w.fs, w.store, ev0 ++ dbg o.debug "Skipping update check in CI environment",
         .skippedCI, none, false⟩
  else
    let gate := intervalGate o w
    if gate.1 then
      .ok ⟨w.fs, w.store,
           ev0 ++ gate.2 ++ dbg o.debug "Skipping update check - within interval",
           .skippedInterval, none, false⟩
    else
      match mainPhase o w (ev0 ++ gate.2) with
      | .ok r => .ok r
      | .error t => .ok (outerCatch o t)

/-- The run as observed by the caller (the promise always resolves;
the fallback branch is provably dead). -/
def checkAndUpdate (opts : Options) (w : World) : RunResult :=
  match checkAndUpdateE opts w with
  | .ok r => r
  | .error e =>
    ⟨w.fs, w.store, [.warnMsg "Error during update check:"], .outerErrorCaught e,
     none, false⟩

/-! ### Event classifiers used by the claims -/

/-- Debug log line? -/
def isDebugEvent : Event → Bool
  | .debugMsg _ => true
  | _ => false

/-- Warning log line (`logger.warn`)? -/
def isWarnEvent : Event → Bool
  | .warnMsg _ => true
  | .backupFailed _ => true
  | .copyFailed _ _ => true
  | .copySourceMissing _ => true
  | _ => false

/-- Registry metadata request? -/
def isFetchReq : Event → Bool
  | .fetchMetadataReq _ => true
  | _ => false

/-- Archive download request? -/
def isDownloadReq : Event → Bool
  | .downloadReq _ => true
  | _ => false

/-- Timestamp store read? -/
def isStoreRead : Event → Bool
  | .storeRead _ => true
  | _ => false

/-- Timestamp store write? -/
def isStoreWrite : Event → Bool
  | .storeWrite _ => true
  | _ => false

/-- Filesystem mutation of any kind? -/
def isFsMutation : Event → Bool
  | .fsWrite _ => true
  | .fsMkdir _ => true
  | .fsExtractEntries _ => true
  | .fsUnlink _ => true
  | .fsRemoveTreeEv _ => true
  | .fsCopy _ _ => true
  | _ => false

/-- Tarball write? -/
def isFsWriteEv : Event → Bool
  | .fsWrite _ => true
  | _ => false

/-- A backup or replace copy actually performed? -/
def isFsCopy : Event → Bool
  | .fsCopy _ _ => true
  | _ => false

/-- Dry-run "would copy" line? -/
def isWouldCopy : Event → Bool
  | .wouldCopy _ _ => true
  | _ => false

/-- Update-policy extraction reached? -/
def isPolicyExtraction : Event → Bool
  | .policyExtraction _ => true
  | _ => false

/-- The source path consulted by one `copyUpdatedFiles` iteration, as
recorded by its per-path event. -/
def eventSource : Event → Option String
  | .copySourceMissing s => some s
  | .wouldCopy s _ => some s
  | .copyFailed s _ => some s
  | .fsCopy s _ => some s
  | _ => none

/-- The event that one `backupFiles` iteration for path `f` emits,
whatever its outcome. -/
def backupEvFor (installDir f : String) (ev : Event) : Bool :=
  let fp := strJoin installDir f
  ev = .backupSkippedMissing fp || ev = .wouldBackup fp (fp ++ ".bak") ||
  ev = .backupFailed fp || ev = .fsCopy fp (fp ++ ".bak")

/-- The event that one `copyUpdatedFiles` iteration for path `f` emits,
whatever its outcome. -/
def copyEvFor (sourceBase installDir f : String) (ev : Event) : Bool :=
  let sp := strJoin sourceBase f
  let dp := strJoin installDir f
  ev = .copySourceMissing sp || ev = .wouldCopy sp dp ||
  ev = .copyFailed sp dp || ev = .fsCopy sp dp

/-! ### Concrete fixtures used by witnesses and counterexamples -/

/-- Registry metadata for a normal applicable update. -/
def mdGood : PackageMetadata :=
  { distTags := [("latest", "1.1.0")],
    versions := [("1.1.0",
      { tarball := some "https://t",
        upgear := some { files := none, needReinstall := some false,
                         changelogUrl := some "https://c" } })] }

/-- An update policy that redundantly declares `dist`. -/
def cfgDup : UpgearConfig :=
  { files := some ["dist"], needReinstall := some false, changelogUrl := none }

/-- The version record carrying `cfgDup`. -/
def recDup : VersionRecord := { tarball := some "https://t", upgear := some cfgDup }

/-- Registry metadata whose policy redundantly declares `dist`. -/
def mdDup : PackageMetadata :=
  { distTags := [("latest", "1.1.0")], versions := [("1.1.0", recDup)] }

/-- The version info `extractVersionInfo` produces from `mdDup`. -/
def viDup : VersionInfo :=
  { version := "1.1.0", tarballUrl := "https://t",
    upgear := { files := ["dist", "package.json", "dist"],
                needReinstall := false, changelogUrl := none } }

/-- The version info `extractVersionInfo` produces from `mdGood`. -/
def viGood : VersionInfo :=
  { version := "1.1.0", tarballUrl := "https://t",
    upgear := { files := ["dist", "package.json"],
                needReinstall := false, changelogUrl := some "https://c" } }

/-- Baseline options: defaults everywhere, an installation directory. -/
def optsBase : Options :=
  { debug := false, version := "1.0.0", name := "m",
    registryBase := none, channel := none, skipOnCI := none,
    updateCheckIntervalMs := none, dryRun := none,
    installDir := some "/i", hasOnDisplay := false }

/-- Baseline options in dry-run mode. -/
def optsDry : Options := { optsBase with dryRun := some true }

/-- Baseline options without an installation directory. -/
def optsNoDir : Options := { optsBase with installDir := none }

/-- Baseline options with a 10 ms interval. -/
def optsInt : Options := { optsBase with updateCheckIntervalMs := some 10 }

/-- World in which a full update succeeds. -/
def wGood : World :=
  { env := [], now := 5, store := none,
    fs := [("/tmp", .dir), ("/i", .dir), ("/i/dist", .dir),
           ("/i/dist/c.js", .file), ("/i/package.json", .file)],
    registry := some mdGood, downloadOk := true, tarExtractOk := true,
    extracted := [("package", .dir), ("package/dist", .dir),
                  ("package/dist/c.js", .file), ("package/package.json", .file)],
    backupFailures := [], copyFailures := [], displayThrows := false }

/-- Same world with a failing archive download. -/
def wDownloadFail : World := { wGood with downloadOk := false }

/-- Same world inside a CI environment. -/
def wCI : World := { wGood with env := [("CI", "true")] }

/-- Same world with a recorded prior check at time 100, clock at 109. -/
def wInt : World := { wGood with store := some [("m", 100)], now := 109 }

/-- Same world with the clock at exactly 110 (= 100 + 10). -/
def wIntLater : World := { wGood with store := some [("m", 100)], now := 110 }

/-- Same world where backing up `dist` and replacing `package.json` fail. -/
def wPartialFail : World :=
  { wGood with backupFailures := ["dist"], copyFailures := ["package.json"] }

/-- Extraction result whose single top-level folder is named `wrapper`,
not `package` (for claim C8). -/
def fsWrapper : FS :=
  [("/e", .dir), ("/e/wrapper", .dir), ("/e/wrapper/dist", .dir)]

/-! ## Lemmas: filesystem primitives -/

theorem fsLookup_fsRemove_self (fs : FS) (p : String) :
    fsLookup (fsRemove fs p) p = none := by
  induction fs with
  | nil => rfl
  | cons e es ih =>
    by_cases h : e.1 = p <;> simp [fsRemove, h, fsLookup, ih]

theorem fsLookup_fsRemoveTree_self (fs : FS) (d : String) :
    fsLookup (fsRemoveTree fs d) d = none := by
  induction fs with
  | nil => rfl
  | cons e es ih =>
    by_cases h : e.1 = d
    · simp [fsRemoveTree, h, ih]
    · by_cases h2 : underDir d e.1 = true <;>
        simp [fsRemoveTree, h, h2, fsLookup, ih]

theorem fsLookup_fsRemoveTree_none (fs : FS) (d p : String)
    (h : fsLookup fs p = none) : fsLookup (fsRemoveTree fs d) p = none := by
  induction fs with
  | nil => rfl
  | cons e es ih =>
    by_cases he : e.1 = p
    · simp [fsLookup, he] at h
    · simp [fsLookup, he] at h
      by_cases h1 : e.1 = d
      · simp [fsRemoveTree, h1, ih h]
      · by_cases h2 : underDir d e.1 = true <;>
          simp [fsRemoveTree, h1, h2, fsLookup, he, ih h]

theorem fsExists_false_iff (fs : FS) (p : String) :
    fsExists fs p = false ↔ fsLookup fs p = none := by
  unfold fsExists
  cases fsLookup fs p <;> simp

/-- After `cleanupTemporaryFiles` outside dry run, neither scratch path
exists. -/
theorem cleanup_removes_scratch (fs : FS) (p : UpdatePaths) :
    fsExists (cleanupTemporaryFiles fs (some p) false).1 p.tarballPath = false ∧
    fsExists (cleanupTemporaryFiles fs (some p) false).1 p.extractDir = false := by
  unfold cleanupTemporaryFiles
  simp only [Bool.false_eq_true, if_false]
  by_cases h1 : fsExists fs p.tarballPath = true
  · by_cases h2 : fsExists (fsRemove fs p.tarballPath) p.extractDir = true
    · simp [h1, h2, fsExists_false_iff,
        fsLookup_fsRemoveTree_none _ _ _ (fsLookup_fsRemove_self fs p.tarballPath),
        fsLookup_fsRemoveTree_self]
    · simp only [Bool.not_eq_true] at h2
      simp [h1, h2, fsExists_false_iff, fsLookup_fsRemove_self]
  · simp only [Bool.not_eq_true] at h1
    have h1n : fsLookup fs p.tarballPath = none :=
      (fsExists_false_iff fs p.tarballPath).mp h1
    by_cases h2 : fsExists fs p.extractDir = true
    · simp [h1, h2, fsExists_false_iff,
        fsLookup_fsRemoveTree_none _ _ _ h1n, fsLookup_fsRemoveTree_self]
    · simp only [Bool.not_eq_true] at h2
      simp [h1, h2, fsExists_false_iff, h1n]

/-! ## Lemmas: pipeline shape -/

/-- Scratch files are only ever marked created outside dry run. -/
theorem innerSection_temp_dry (w : World) (fs : FS) (o : ResolvedOptions)
    (vi : VersionInfo) (paths : UpdatePaths)
    (h : (innerUpdateSection w fs o vi paths).2.2.1 = true) :
    o.dryRun = false := by
  unfold innerUpdateSection at h
  simp only [] at h
  repeat' split at h
  all_goals simp_all

/-- An exception escaping `mainPhase` to the top-level catch carries no
scratch state (it can only come from the reinstall notification). -/
theorem mainPhase_error_temp (o : ResolvedOptions) (w : World)
    (evPre : List Event) (t : ThrowSt)
    (h : mainPhase o w evPre = .error t) : t.tempCreated = false := by
  unfold mainPhase at h
  simp only [] at h
  repeat' split at h
  all_goals
    first
    | exact Except.noConfusion h
    | (injection h with h2; subst h2; rfl)

/-- After the inner catch/finally, if scratch files had been created,
neither scratch path exists any more. -/
theorem icf_scratch (o : ResolvedOptions) (w : World) (fs : FS)
    (vi : VersionInfo) (paths : UpdatePaths)
    (h : (innerCatchFinally o paths (innerUpdateSection w fs o vi paths)).2.2.1
         = true) :
    fsExists (innerCatchFinally o paths
        (innerUpdateSection w fs o vi paths)).1 paths.tarballPath = false ∧
    fsExists (innerCatchFinally o paths
        (innerUpdateSection w fs o vi paths)).1 paths.extractDir = false := by
  have hdry : o.dryRun = false := by
    apply innerSection_temp_dry w fs o vi paths
    rcases hinner : innerUpdateSection w fs o vi paths with ⟨fs1, evI, tc, res⟩
    rw [hinner] at h
    cases res <;> (simp only [innerCatchFinally] at h; simpa using h)
  rcases hinner : innerUpdateSection w fs o vi paths with ⟨fs1, evI, tc, res⟩
  rw [hinner] at h
  cases res <;> simp only [innerCatchFinally] at h ⊢ <;>
    simp [h, hdry, cleanup_removes_scratch]

/-- The inner catch logs the inner warning whenever it reports a caught
error. -/
theorem icf_exit_warn (o : ResolvedOptions) (paths : UpdatePaths)
    (inner : FS × List Event × Bool × Except Err Unit) (e : Err)
    (h : (innerCatchFinally o paths inner).2.2.2 = .innerErrorCaught e) :
    Event.warnMsg "Error during update process:" ∈
      (innerCatchFinally o paths inner).2.1 := by
  rcases inner with ⟨fs1, evI, tc, res⟩
  cases res <;> simp [innerCatchFinally] at h ⊢

/-- The inner catch never reports a top-level caught error. -/
theorem icf_not_outer (o : ResolvedOptions) (paths : UpdatePaths)
    (inner : FS × List Event × Bool × Except Err Unit) (e : Err) :
    (innerCatchFinally o paths inner).2.2.2 ≠ .outerErrorCaught e := by
  rcases inner with ⟨fs1, evI, tc, res⟩
  cases res <;> simp [innerCatchFinally]

/-- When the run marked scratch files as created, the returned
filesystem went through `cleanupTemporaryFiles` on its scratch paths. -/
theorem mainPhase_ok_cleanup (o : ResolvedOptions) (w : World)
    (evPre : List Event) (r : RunResult) (p : UpdatePaths)
    (h : mainPhase o w evPre = .ok r)
    (h1 : r.tempCreated = true) (h2 : r.paths = some p) :
    fsExists r.fs p.tarballPath = false ∧ fsExists r.fs p.extractDir = false := by
  unfold mainPhase at h
  simp only [] at h
  repeat' split at h
  all_goals first
    | exact Except.noConfusion h
    | (injection h with h2'; subst h2'; simp_all; done)
    | (injection h with h2'; subst h2'
       simp only [] at h1 h2
       injection h2 with h3
       subst h3
       simpa using icf_scratch o w w.fs _ _ h1)

/-- Exit/trace facts about normal `mainPhase` results: an inner caught
error always logs the inner warning, and `mainPhase` itself never
reports a top-level caught error. -/
theorem mainPhase_ok_exit_facts (o : ResolvedOptions) (w : World)
    (evPre : List Event) (r : RunResult) (h : mainPhase o w evPre = .ok r) :
    (∀ e, r.exit = .innerErrorCaught e →
      Event.warnMsg "Error during update process:" ∈ r.trace) ∧
    (∀ e, r.exit ≠ .outerErrorCaught e) := by
  unfold mainPhase at h
  simp only [] at h
  repeat' split at h
  all_goals first
    | exact Except.noConfusion h
    | (injection h with h2; subst h2
       refine ⟨fun e he => ?_, fun e he => ?_⟩ <;>
         first
         | exact Exit.noConfusion he
         | (simp only [] at he ⊢
            first
            | exact List.mem_append_right _ (icf_exit_warn _ _ _ _ he)
            | exact absurd he (icf_not_outer _ _ _ _)))

/-- The promise always resolves: the explicit rejection channel of the
model is never used. -/
theorem checkAndUpdateE_isOk (opts : Options) (w : World) :
    (checkAndUpdateE opts w).isOk = true := by
  unfold checkAndUpdateE
  simp only []
  repeat' split
  all_goals simp [Except.isOk, Except.toBool]

/-- Reduce `checkAndUpdate` through a known `checkAndUpdateE` value. -/
theorem checkAndUpdate_of_ok (opts : Options) (w : World) (r : RunResult)
    (h : checkAndUpdateE opts w = .ok r) : checkAndUpdate opts w = r := by
  unfold checkAndUpdate
  rw [h]

/-! ## Lemmas: gates -/

theorem intervalGate_false_of_dry (o : ResolvedOptions) (w : World)
    (h : o.dryRun = true) : (intervalGate o w).1 = false := by
  unfold intervalGate
  rw [if_neg]
  intro hc
  rw [h] at hc
  exact absurd hc.1 (by simp)

theorem intervalGate_false_of_nonpos (o : ResolvedOptions) (w : World)
    (h : o.updateCheckIntervalMs ≤ 0) : (intervalGate o w).1 = false := by
  unfold intervalGate
  rw [if_neg]
  intro hc
  omega

theorem intervalGate_false_of_zeroT (o : ResolvedOptions) (w : World)
    (h : readLastCheckTimestamp w.store o.name = 0) :
    (intervalGate o w).1 = false := by
  unfold intervalGate
  by_cases hc : o.dryRun = false ∧ o.updateCheckIntervalMs > 0
  · rw [if_pos hc, if_neg]
    rw [h]
    intro hk
    omega
  · rw [if_neg hc]

theorem intervalGate_false_of_none (o : ResolvedOptions) (w : World)
    (h : w.store = none) : (intervalGate o w).1 = false := by
  apply intervalGate_false_of_zeroT
  rw [h]
  rfl

theorem intervalGate_false_of_elapsed (o : ResolvedOptions) (w : World)
    (T I : Int) (hI : o.updateCheckIntervalMs = I)
    (hT : readLastCheckTimestamp w.store o.name = T)
    (h : T + I ≤ w.now) : (intervalGate o w).1 = false := by
  unfold intervalGate
  by_cases hc : o.dryRun = false ∧ o.updateCheckIntervalMs > 0
  · rw [if_pos hc, if_neg]
    rw [hT, hI]
    intro hk
    omega
  · rw [if_neg hc]

/-- Any event list built by the gate prefix contains only debug lines
and one timestamp-store read. -/
theorem evPre_any_false (o : ResolvedOptions) (w : World) (p : Event → Bool)
    (hd : ∀ s, p (.debugMsg s) = false) (hs : ∀ n, p (.storeRead n) = false) :
    (dbg o.debug "Starting update check with options:" ++
      (intervalGate o w).2).any p = false := by
  rw [List.any_append]
  have hdbg : ∀ s, (dbg o.debug s).any p = false := by
    intro s
    unfold dbg
    split <;> simp [hd]
  rw [hdbg]
  unfold intervalGate
  by_cases h1 : o.dryRun = false ∧ o.updateCheckIntervalMs > 0
  · rw [if_pos h1]
    by_cases h2 : 0 < readLastCheckTimestamp w.store o.name ∧
        w.now - readLastCheckTimestamp w.store o.name < o.updateCheckIntervalMs
    · rw [if_pos h2]
      simp [hs]
    · rw [if_neg h2]
      simp [hs, hdbg, List.any_append, hd]
  · rw [if_neg h1]
    simp

/-- Every `mainPhase` outcome records the registry metadata request in
its trace. -/
theorem mainPhase_ok_fetch (o : ResolvedOptions) (w : World)
    (evPre : List Event) (r : RunResult) (h : mainPhase o w evPre = .ok r) :
    r.trace.any isFetchReq = true := by
  unfold mainPhase at h
  simp only [] at h
  repeat' split at h
  all_goals first
    | exact Except.noConfusion h
    | (injection h with h2; subst h2; simp [List.any_append, isFetchReq])

/-- Same for an escaping exception. -/
theorem mainPhase_error_fetch (o : ResolvedOptions) (w : World)
    (evPre : List Event) (t : ThrowSt) (h : mainPhase o w evPre = .error t) :
    t.trace.any isFetchReq = true := by
  unfold mainPhase at h
  simp only [] at h
  repeat' split at h
  all_goals first
    | exact Except.noConfusion h
    | (injection h with h2; subst h2; simp [List.any_append, isFetchReq])

/-- Past both gates, the run always issues the registry request. -/
theorem proceeds_fetch (opts : Options) (w : World)
    (hci : isCI w.env = false)
    (hgate : (intervalGate (resolveOptions opts) w).1 = false) :
    (checkAndUpdate opts w).trace.any isFetchReq = true := by
  unfold checkAndUpdate checkAndUpdateE
  rw [hci]
  simp only [Bool.and_false, Bool.false_eq_true, if_false, hgate]
  cases hm : mainPhase (resolveOptions opts) w
      (dbg (resolveOptions opts).debug "Starting update check with options:" ++
        (intervalGate (resolveOptions opts) w).2) with
  | ok r => simpa using mainPhase_ok_fetch _ _ _ _ hm
  | error t =>
    have := mainPhase_error_fetch _ _ _ _ hm
    simp [outerCatch, List.any_append, this]

/-! ## Lemmas: the version decision inside the pipeline -/

/-- `isUpdateNeeded` is exactly "both versions valid and latest
strictly greater". -/
theorem isUpdateNeeded_eq (c l : String) :
    isUpdateNeeded c l =
      (semverValidB c && semverValidB l && semverGtStr l c) := by
  unfold isUpdateNeeded semverValidB semverGtStr
  cases hpc : parseSemVer c <;> cases hpl : parseSemVer l <;> simp

/-- With metadata, channel and a positive decision pinned, every normal
result of `mainPhase` records that policy extraction was reached. -/
theorem mainPhase_ok_policy (o : ResolvedOptions) (w : World)
    (evPre : List Event) (r : RunResult) (md : PackageMetadata) (latest : String)
    (hreg : w.registry = some md)
    (htag : slookup md.distTags o.channel = some latest)
    (hne : latest ≠ "")
    (hupd : isUpdateNeeded o.version latest = true)
    (h : mainPhase o w evPre = .ok r) :
    r.trace.any isPolicyExtraction = true := by
  unfold mainPhase at h
  simp only [] at h
  rw [hreg] at h
  simp only [] at h
  rw [htag] at h
  simp only [] at h
  rw [if_neg hne, hupd] at h
  simp only [Bool.not_true, Bool.false_eq_true, if_false] at h
  repeat' split at h
  all_goals first
    | exact Except.noConfusion h
    | (injection h with h2; subst h2;
       simp [List.any_append, isPolicyExtraction])

/-- Same fact for an exception escaping `mainPhase`. -/
theorem mainPhase_error_policy (o : ResolvedOptions) (w : World)
    (evPre : List Event) (t : ThrowSt) (md : PackageMetadata) (latest : String)
    (hreg : w.registry = some md)
    (htag : slookup md.distTags o.channel = some latest)
    (hne : latest ≠ "")
    (hupd : isUpdateNeeded o.version latest = true)
    (h : mainPhase o w evPre = .error t) :
    t.trace.any isPolicyExtraction = true := by
  unfold mainPhase at h
  simp only [] at h
  rw [hreg] at h
  simp only [] at h
  rw [htag] at h
  simp only [] at h
  rw [if_neg hne, hupd] at h
  simp only [Bool.not_true, Bool.false_eq_true, if_false] at h
  repeat' split at h
  all_goals first
    | exact Except.noConfusion h
    | (injection h with h2; subst h2;
       simp [List.any_append, isPolicyExtraction])

/-- With a negative decision, `mainPhase` stops at `upToDate`, touches
no file, and never reaches policy extraction. -/
theorem mainPhase_ok_noupdate (o : ResolvedOptions) (w : World)
    (evPre : List Event) (r : RunResult) (md : PackageMetadata) (latest : String)
    (hreg : w.registry = some md)
    (htag : slookup md.distTags o.channel = some latest)
    (hne : latest ≠ "")
    (hupd : isUpdateNeeded o.version latest = false)
    (hpre : evPre.any isPolicyExtraction = false)
    (h : mainPhase o w evPre = .ok r) :
    r.exit = .upToDate ∧ r.fs = w.fs ∧
    r.trace.any isPolicyExtraction = false := by
  unfold mainPhase at h
  simp only [] at h
  rw [hreg] at h
  simp only [] at h
  rw [htag] at h
  simp only [] at h
  rw [if_neg hne, hupd] at h
  simp only [Bool.not_false] at h
  rw [if_true] at h
  injection h with h2
  subst h2
  refine ⟨rfl, rfl, ?_⟩
  cases hdry : o.dryRun <;> cases hb : o.debug <;>
    simp [dbg, hdry, hb, List.any_append, isPolicyExtraction, hpre]

/-- With a negative decision, `mainPhase` cannot throw. -/
theorem mainPhase_error_noupdate (o : ResolvedOptions) (w : World)
    (evPre : List Event) (t : ThrowSt) (md : PackageMetadata) (latest : String)
    (hreg : w.registry = some md)
    (htag : slookup md.distTags o.channel = some latest)
    (hne : latest ≠ "")
    (hupd : isUpdateNeeded o.version latest = false)
    (h : mainPhase o w evPre = .error t) : False := by
  unfold mainPhase at h
  simp only [] at h
  rw [hreg] at h
  simp only [] at h
  rw [htag] at h
  simp only [] at h
  rw [if_neg hne, hupd] at h
  simp only [Bool.not_false] at h
  rw [if_true] at h
  exact Except.noConfusion h

/-! ## Lemmas: per-path loops -/

/-- One `copyUpdatedFiles` iteration consults exactly the source path
under the fixed base, whatever its outcome. -/
theorem copyOne_source (w : World) (fs : FS) (base installDir f : String)
    (dryRun : Bool) :
    ((copyOne w fs base installDir f dryRun).2.filterMap eventSource) =
      [strJoin base f] := by
  unfold copyOne
  cases hex : fsExists fs (strJoin base f) <;> cases hdry : dryRun <;>
    simp only [Bool.not_false, Bool.not_true, if_true, Bool.false_eq_true,
      Bool.true_eq_false, if_false] <;>
    split_ifs <;> simp [eventSource]

/-- The copy loop consults the declared paths in order, all of them,
each against the fixed source base. -/
theorem copyFilesLoop_sources (w : World) (base installDir : String)
    (dryRun : Bool) :
    ∀ (files : List String) (fs : FS),
      ((copyFilesLoop w fs base installDir dryRun files).2.filterMap
        eventSource) = files.map (fun f => strJoin base f) := by
  intro files
  induction files with
  | nil => intro fs; rfl
  | cons g rest ih =>
    intro fs
    unfold copyFilesLoop
    simp only []
    rw [List.filterMap_append, copyOne_source, ih]
    rfl

/-- One `backupFiles` iteration emits its per-path event. -/
theorem backupOne_ev (w : World) (fs : FS) (installDir f : String)
    (dryRun : Bool) :
    ((backupOne w fs installDir f dryRun).2).any (backupEvFor installDir f)
      = true := by
  unfold backupOne
  cases hex : fsExists fs (strJoin installDir f) <;> cases hdry : dryRun <;>
    simp only [Bool.not_false, Bool.not_true, if_true, Bool.false_eq_true,
      Bool.true_eq_false, if_false] <;>
    split_ifs <;> simp [backupEvFor]

/-- Every path of the backup loop is processed, regardless of what
happened to the paths before it. -/
theorem backupFiles_processes (w : World) (installDir : String)
    (dryRun : Bool) :
    ∀ (files : List String) (fs : FS) (f : String), f ∈ files →
      ((backupFiles w fs installDir dryRun files).2).any
        (backupEvFor installDir f) = true := by
  intro files
  induction files with
  | nil => intro fs f hf; exact absurd hf (List.not_mem_nil f)
  | cons g rest ih =>
    intro fs f hf
    unfold backupFiles
    simp only []
    rw [List.any_append]
    rcases List.mem_cons.mp hf with rfl | hmem
    · rw [backupOne_ev]
      rfl
    · rw [ih _ f hmem]
      simp

/-- One `copyUpdatedFiles` iteration emits its per-path event. -/
theorem copyOne_ev (w : World) (fs : FS) (base installDir f : String)
    (dryRun : Bool) :
    ((copyOne w fs base installDir f dryRun).2).any
      (copyEvFor base installDir f) = true := by
  unfold copyOne
  cases hex : fsExists fs (strJoin base f) <;> cases hdry : dryRun <;>
    simp only [Bool.not_false, Bool.not_true, if_true, Bool.false_eq_true,
      Bool.true_eq_false, if_false] <;>
    split_ifs <;> simp [copyEvFor]

/-- Every path of the copy loop is processed, regardless of what
happened to the paths before it. -/
theorem copyFilesLoop_processes (w : World) (base installDir : String)
    (dryRun : Bool) :
    ∀ (files : List String) (fs : FS) (f : String), f ∈ files →
      ((copyFilesLoop w fs base installDir dryRun files).2).any
        (copyEvFor base installDir f) = true := by
  intro files
  induction files with
  | nil => intro fs f hf; exact absurd hf (List.not_mem_nil f)
  | cons g rest ih =>
    intro fs f hf
    unfold copyFilesLoop
    simp only []
    rw [List.any_append]
    rcases List.mem_cons.mp hf with rfl | hmem
    · rw [copyOne_ev]
      rfl
    · rw [ih _ f hmem]
      simp

/-! ## Lemmas: extraction children and the missing-installDir path -/

theorem fsLookup_fsRemove_ne (fs : FS) (p q : String) (h : ¬ q = p) :
    fsLookup (fsRemove fs p) q = fsLookup fs q := by
  induction fs with
  | nil => rfl
  | cons e es ih =>
    by_cases he : e.1 = p
    · simp only [fsRemove, if_pos he, ih, fsLookup]
      rw [if_neg (fun hh : e.1 = q => h (hh ▸ he))]
    · simp only [fsRemove, if_neg he, fsLookup, ih]

theorem fsLookup_fsSet (fs : FS) (p q : String) (k : NodeKind) :
    fsLookup (fsSet fs p k) q = if q = p then some k else fsLookup fs q := by
  unfold fsSet
  simp only [fsLookup]
  by_cases h : q = p
  · rw [if_pos h, if_pos h.symm]
  · rw [if_neg h, if_neg (fun hh => h hh.symm)]
    exact fsLookup_fsRemove_ne fs p q h

theorem fold_extract_preserves (ed : String) (l : List (String × NodeKind)) :
    ∀ (fs : FS) (q : String), (fsLookup fs q).isSome = true →
      (fsLookup (l.foldl (fun a e => fsSet a (strJoin ed e.1) e.2) fs) q).isSome
        = true := by
  induction l with
  | nil => intro fs q h; exact h
  | cons e rest ih =>
    intro fs q h
    rw [List.foldl_cons]
    apply ih
    rw [fsLookup_fsSet]
    by_cases hq : q = strJoin ed e.1 <;> simp [hq, h]

theorem fold_extract_mem (ed : String) (l : List (String × NodeKind))
    (n : String) (k : NodeKind) (hmem : (n, k) ∈ l) :
    ∀ (fs : FS),
      (fsLookup (l.foldl (fun a e => fsSet a (strJoin ed e.1) e.2) fs)
        (strJoin ed n)).isSome = true := by
  induction l with
  | nil => exact absurd hmem (List.not_mem_nil _)
  | cons e rest ih =>
    intro fs
    rw [List.foldl_cons]
    rcases List.mem_cons.mp hmem with heq | hmem'
    · subst heq
      apply fold_extract_preserves
      rw [fsLookup_fsSet]
      simp
    · exact ih hmem' _

theorem fsLookup_isSome_mem (fs : FS) (q : String)
    (h : (fsLookup fs q).isSome = true) : ∃ k, (q, k) ∈ fs := by
  induction fs with
  | nil => simp [fsLookup] at h
  | cons e es ih =>
    unfold fsLookup at h
    by_cases he : e.1 = q
    · exact ⟨e.2, by rw [← he]; exact List.mem_cons_self e es⟩
    · rw [if_neg he] at h
      obtain ⟨k, hk⟩ := ih h
      exact ⟨k, List.mem_cons_of_mem e hk⟩

theorem isPrefixL_append_self (xs : List Char) :
    ∀ ys, isPrefixL xs (xs ++ ys) = true := by
  induction xs with
  | nil => intro ys; rfl
  | cons c cs ih => intro ys; simp [isPrefixL, ih]

theorem childName_strJoin (d f : String) :
    childName d (strJoin d f) =
      (if f.data.contains '/' then none else some f) := by
  unfold childName underDir strJoin
  have hsplit : d.data ++ '/' :: f.data = (d.data ++ ['/']) ++ f.data := by simp
  have h1 : isPrefixL (d.data ++ ['/']) (d.data ++ '/' :: f.data) = true := by
    rw [hsplit]
    exact isPrefixL_append_self _ _
  rw [if_pos h1]
  have h2 : (d.data ++ '/' :: f.data).drop (d.data.length + 1) = f.data := by
    rw [hsplit]
    have hlen : (d.data ++ ['/']).length = d.data.length + 1 := by simp
    rw [← hlen, List.drop_left]
  simp only [h2]

theorem childrenOf_extract_nonempty (ed : String)
    (l : List (String × NodeKind)) (fs : FS)
    (hpkg : ("package", NodeKind.dir) ∈ l) :
    (childrenOf (l.foldl (fun a e => fsSet a (strJoin ed e.1) e.2) fs)
      ed).isEmpty = false := by
  have h1 := fold_extract_mem ed l "package" NodeKind.dir hpkg fs
  obtain ⟨k, hk⟩ := fsLookup_isSome_mem _ _ h1
  have hc : childName ed (strJoin ed "package") = some "package" := by
    rw [childName_strJoin]
    decide
  have hmem : "package" ∈
      childrenOf (l.foldl (fun a e => fsSet a (strJoin ed e.1) e.2) fs) ed :=
    List.mem_filterMap.mpr ⟨(strJoin ed "package", k), hk, hc⟩
  cases hc2 : childrenOf (l.foldl (fun a e => fsSet a (strJoin ed e.1) e.2) fs) ed with
  | nil =>
    rw [hc2] at hmem
    exact absurd hmem (List.not_mem_nil _)
  | cons a as => rfl

/-- Cleanup emits only deletions, never copies. -/
theorem cleanup_events_no_copy (fs : FS) (paths : Option UpdatePaths)
    (dryRun : Bool) :
    ((cleanupTemporaryFiles fs paths dryRun).2).any isFsCopy = false := by
  unfold cleanupTemporaryFiles
  by_cases hd : dryRun = true
  · rw [if_pos hd]
    rfl
  · rw [if_neg hd]
    cases paths with
    | none => rfl
    | some p =>
      simp only []
      split_ifs <;> simp [isFsCopy]

/-- A successful non-dry download: some filesystem and events, no copy
events, an `ok` outcome. -/
theorem downloadTarball_ok (w : World) (fs : FS) (url tp : String)
    (hdl : w.downloadOk = true) :
    ∃ fs' ev, downloadTarball w fs url tp false = (fs', ev, .ok ()) ∧
      ev.any isFsCopy = false := by
  unfold downloadTarball
  rw [hdl]
  simp only [Bool.false_eq_true, if_false, if_true]
  by_cases hex : fsExists fs (strDirname tp) = true
  · rw [if_pos hex]
    exact ⟨_, _, rfl, by simp [isFsCopy]⟩
  · rw [if_neg hex]
    exact ⟨_, _, rfl, by simp [isFsCopy]⟩

/-- A successful non-dry extraction whose archive contains a top-level
`package` directory: an `ok` outcome with no copy events. -/
theorem extractTarball_ok (w : World) (fs : FS) (tp ed : String)
    (htar : w.tarExtractOk = true)
    (hpkg : ("package", NodeKind.dir) ∈ w.extracted) :
    ∃ fs' ev, extractTarball w fs tp ed false = (fs', ev, .ok ()) ∧
      ev.any isFsCopy = false := by
  unfold extractTarball
  rw [htar]
  simp only [Bool.false_eq_true, if_false, Bool.not_true]
  by_cases hex : fsExists fs ed = true
  · rw [if_pos hex]
    simp only []
    rw [if_neg (by rw [childrenOf_extract_nonempty ed w.extracted fs hpkg]; simp)]
    exact ⟨_, _, rfl, by simp [isFsCopy]⟩
  · rw [if_neg hex]
    simp only []
    rw [if_neg (by rw [childrenOf_extract_nonempty ed w.extracted _ hpkg]; simp)]
    exact ⟨_, _, rfl, by simp [isFsCopy]⟩

/-- The inner section with a missing installation directory: download
and extraction happen, then the section throws `installDirMissing`
with scratch files marked created and no copy performed. -/
theorem innerSection_noInstallDir (w : World) (fs : FS) (o : ResolvedOptions)
    (vi : VersionInfo) (paths : UpdatePaths)
    (hdry : o.dryRun = false) (hdir : o.installDir = none)
    (hdl : w.downloadOk = true) (htar : w.tarExtractOk = true)
    (hpkg : ("package", NodeKind.dir) ∈ w.extracted) :
    ∃ fs3 evI, innerUpdateSection w fs o vi paths =
      (fs3, evI, true, .error .installDirMissing) ∧
      evI.any isFsCopy = false := by
  unfold innerUpdateSection
  rw [hdry]
  obtain ⟨fs1, ev1, hdown, hev1⟩ :=
    downloadTarball_ok w fs vi.tarballUrl paths.tarballPath hdl
  rw [hdown]
  simp only []
  obtain ⟨fs2, ev2, hext, hev2⟩ :=
    extractTarball_ok w fs1 paths.tarballPath paths.extractDir htar hpkg
  rw [hext]
  simp only []
  rw [hdir]
  simp only [Bool.not_false, Bool.true_and]
  by_cases hex : fsExists fs2 paths.tarballPath = true
  · rw [if_pos hex]
    exact ⟨_, _, rfl, by simp [List.any_append, hev1, hev2, isFsCopy]⟩
  · rw [if_neg hex]
    exact ⟨_, _, rfl, by simp [List.any_append, hev1, hev2, isFsCopy]⟩


/-- `mainPhase` when the installation directory is missing but the
update is otherwise applicable: the run is marked as having created
scratch files, ends in a caught `installDirMissing`, and performs no
backup or replace copy. -/
theorem mainPhase_noInstallDir (o : ResolvedOptions) (w : World)
    (evPre : List Event) (md : PackageMetadata) (latest : String)
    (vi : VersionInfo)
    (hreg : w.registry = some md)
    (htag : slookup md.distTags o.channel = some latest)
    (hne : latest ≠ "")
    (hupd : isUpdateNeeded o.version latest = true)
    (hevi : extractVersionInfo md latest = some vi)
    (hrein : vi.upgear.needReinstall = false)
    (hdry : o.dryRun = false) (hdir : o.installDir = none)
    (hdl : w.downloadOk = true) (htar : w.tarExtractOk = true)
    (hpkg : ("package", NodeKind.dir) ∈ w.extracted)
    (hpre : evPre.any isFsCopy = false) :
    ∃ r, mainPhase o w evPre = .ok r ∧
      r.exit = .innerErrorCaught .installDirMissing ∧
      r.trace.any isFsCopy = false ∧
      r.tempCreated = true := by
  unfold mainPhase
  simp only []
  rw [hreg]
  simp only []
  rw [htag]
  simp only []
  rw [if_neg hne, hupd]
  simp only [Bool.not_true, Bool.false_eq_true, if_false]
  rw [hevi]
  simp only []
  rw [hrein]
  simp only [Bool.false_eq_true, if_false]
  rw [hdry]
  simp only [Bool.not_false, if_true]
  obtain ⟨fs3, evI, hinner, hevc⟩ := innerSection_noInstallDir w w.fs o vi
    (createTempPaths o.name vi.version w.now) hdry hdir hdl htar hpkg
  rw [hinner]
  simp only [innerCatchFinally, if_true]
  refine ⟨_, rfl, rfl, ?_, rfl⟩
  simp [List.any_append, hpre, hevc, isFsCopy, cleanup_events_no_copy]

/-! ## Lemmas: dry-run behaviour of the stages -/

theorem downloadTarball_dry (w : World) (fs : FS) (url tp : String) :
    downloadTarball w fs url tp true =
      (fs, [.wouldDownload url tp], .ok ()) := rfl

theorem extractTarball_dry (w : World) (fs : FS) (tp ed : String) :
    extractTarball w fs tp ed true = (fs, [.wouldExtract tp ed], .ok ()) := rfl

theorem displayUpdateNotification_dry (w : World) (v pn : String) (nr : Bool)
    (cl : Option String) (hod : Bool) :
    displayUpdateNotification w v pn nr cl true hod =
      ([.wouldDisplay v], .ok ()) := rfl

/-- In dry run the backup loop leaves the filesystem alone and logs one
line per path: "would back up" for existing targets, a debug skip
otherwise. -/
theorem backupFiles_dry (w : World) (installDir : String) :
    ∀ (files : List String) (fs : FS),
      backupFiles w fs installDir true files =
        (fs, files.map (fun f =>
          if fsExists fs (strJoin installDir f) then
            Event.wouldBackup (strJoin installDir f)
              ((strJoin installDir f) ++ ".bak")
          else Event.backupSkippedMissing (strJoin installDir f))) := by
  intro files
  induction files with
  | nil => intro fs; rfl
  | cons g rest ih =>
    intro fs
    unfold backupFiles
    simp only []
    have hb : backupOne w fs installDir g true =
        (fs, [if fsExists fs (strJoin installDir g) then
            Event.wouldBackup (strJoin installDir g)
              ((strJoin installDir g) ++ ".bak")
          else Event.backupSkippedMissing (strJoin installDir g)]) := by
      unfold backupOne
      cases hex : fsExists fs (strJoin installDir g) <;> simp [hex]
    rw [hb, ih]
    simp

/-- When no source path exists, the copy loop leaves the filesystem
alone and logs one "source not found" warning per path. -/
theorem copyFilesLoop_missing (w : World) (base installDir : String)
    (dryRun : Bool) :
    ∀ (files : List String) (fs : FS),
      (∀ f ∈ files, fsExists fs (strJoin base f) = false) →
      copyFilesLoop w fs base installDir dryRun files =
        (fs, files.map (fun f => Event.copySourceMissing (strJoin base f))) := by
  intro files
  induction files with
  | nil => intro fs _; rfl
  | cons g rest ih =>
    intro fs H
    unfold copyFilesLoop
    simp only []
    have hc : copyOne w fs base installDir g dryRun =
        (fs, [.copySourceMissing (strJoin base g)]) := by
      unfold copyOne
      simp only []
      rw [H g (List.mem_cons_self g rest)]
      simp
    rw [hc, ih _ (fun f hf => H f (List.mem_cons_of_mem _ hf))]
    simp

theorem resolveSourceBase_of_absent (fs : FS) (ed : String)
    (h : fsExists fs (strJoin ed "package") = false) :
    resolveSourceBase fs ed = ed := by
  unfold resolveSourceBase
  simp [h]

theorem underDir_strJoin (d f : String) : underDir d (strJoin d f) = true := by
  unfold underDir strJoin
  have hsplit : d.data ++ '/' :: f.data = (d.data ++ ['/']) ++ f.data := by simp
  show isPrefixL (d.data ++ ['/']) (d.data ++ '/' :: f.data) = true
  rw [hsplit]
  exact isPrefixL_append_self _ _

theorem noEntryUnder_lookup (fs : FS) (d p : String)
    (hall : noEntryUnder fs d = true) (hp : underDir d p = true) :
    fsLookup fs p = none := by
  induction fs with
  | nil => rfl
  | cons e es ih =>
    unfold noEntryUnder at hall
    rw [List.all_cons] at hall
    rw [Bool.and_eq_true] at hall
    unfold fsLookup
    by_cases he : e.1 = p
    · exfalso
      have h1 := hall.1
      rw [he] at h1
      simp [hp] at h1
    · rw [if_neg he]
      exact ih hall.2

theorem noEntryUnder_join_absent (fs : FS) (d f : String)
    (h : noEntryUnder fs d = true) : fsExists fs (strJoin d f) = false := by
  rw [fsExists_false_iff]
  exact noEntryUnder_lookup fs d _ h (underDir_strJoin d f)

theorem any_of_forall_false {α : Type} (p : α → Bool) :
    ∀ (l : List α), (∀ x ∈ l, p x = false) → l.any p = false := by
  intro l
  induction l with
  | nil => intro _; rfl
  | cons a as ih =>
    intro H
    rw [List.any_cons, H a (List.mem_cons_self a as),
      ih (fun x hx => H x (List.mem_cons_of_mem _ hx))]
    rfl

/-- The inner section in dry run with an installation directory and no
pre-existing scratch subtree: the filesystem is untouched, no scratch
creation is recorded, and the events are exactly the dry-run log
lines — would-download, would-extract, per-existing-path would-backup,
per-path source-missing warnings (nothing was extracted, so no
would-copy line), and would-display. -/
theorem innerSection_dry (w : World) (fs : FS) (o : ResolvedOptions)
    (vi : VersionInfo) (paths : UpdatePaths) (d : String)
    (hdry : o.dryRun = true) (hdir : o.installDir = some d) (hdne : d ≠ "")
    (habs : noEntryUnder fs paths.extractDir = true) :
    ∃ evI, innerUpdateSection w fs o vi paths = (fs, evI, false, .ok ()) ∧
      (∀ ev ∈ evI, isFsMutation ev = false ∧ isDownloadReq ev = false ∧
        isWouldCopy ev = false ∧ isStoreWrite ev = false) ∧
      Event.wouldDownload vi.tarballUrl paths.tarballPath ∈ evI ∧
      Event.wouldExtract paths.tarballPath paths.extractDir ∈ evI ∧
      Event.wouldDisplay vi.version ∈ evI ∧
      (∀ f ∈ vi.upgear.files, fsExists fs (strJoin d f) = true →
        Event.wouldBackup (strJoin d f) ((strJoin d f) ++ ".bak") ∈ evI) := by
  unfold innerUpdateSection
  rw [hdry, downloadTarball_dry]
  simp only []
  rw [extractTarball_dry]
  simp only []
  simp only [Bool.not_true, Bool.false_and, Bool.false_eq_true, if_false]
  rw [hdir]
  simp only []
  rw [if_neg hdne, backupFiles_dry]
  simp only []
  unfold copyUpdatedFiles
  rw [resolveSourceBase_of_absent fs _
        (noEntryUnder_join_absent fs _ "package" habs),
      copyFilesLoop_missing w paths.extractDir d true vi.upgear.files fs
        (fun f _ => noEntryUnder_join_absent fs _ f habs)]
  simp only []
  rw [displayUpdateNotification_dry]
  simp only []
  refine ⟨_, rfl, ?_, ?_, ?_, ?_, ?_⟩
  · intro ev hev
    simp only [List.mem_append, List.mem_singleton, List.mem_cons,
      List.mem_map, List.not_mem_nil, or_false, false_or] at hev
    rcases hev with (((h | h) | ⟨f, hf, h⟩) | ⟨f, hf, h⟩) | h
    · subst h; exact ⟨rfl, rfl, rfl, rfl⟩
    · subst h; exact ⟨rfl, rfl, rfl, rfl⟩
    · subst h
      split <;> exact ⟨rfl, rfl, rfl, rfl⟩
    · subst h; exact ⟨rfl, rfl, rfl, rfl⟩
    · subst h; exact ⟨rfl, rfl, rfl, rfl⟩
  · simp [List.mem_append]
  · simp [List.mem_append]
  · simp [List.mem_append]
  · intro f hf hex
    simp only [List.mem_append, List.mem_singleton, List.mem_cons,
      List.mem_map, List.not_mem_nil, or_false, false_or]
    exact Or.inl (Or.inl (Or.inr ⟨f, hf, by simp [hex]⟩))

/-- The inner catch/finally on a clean inner section that created no
scratch files: nothing to clean, success debug line appended. -/
theorem icf_ok_notemp (o : ResolvedOptions) (paths : UpdatePaths) (fs1 : FS)
    (evI : List Event) :
    innerCatchFinally o paths (fs1, evI, false, .ok ()) =
      (fs1, evI ++ dbg o.debug "Update completed successfully", false,
       .updated) := by
  simp [innerCatchFinally]

/-- `mainPhase` of an applicable dry-run update: it succeeds with
`updated`, leaves filesystem and store untouched, records no mutation,
download, store-write or would-copy event, and logs the would-download,
would-extract, would-display and per-existing-path would-backup lines. -/
theorem mainPhase_dry (o : ResolvedOptions) (w : World) (evPre : List Event)
    (md : PackageMetadata) (latest : String) (vi : VersionInfo) (d : String)
    (hdry : o.dryRun = true)
    (hreg : w.registry = some md)
    (htag : slookup md.distTags o.channel = some latest)
    (hne : latest ≠ "")
    (hupd : isUpdateNeeded o.version latest = true)
    (hvi : extractVersionInfo md latest = some vi)
    (hnri : vi.upgear.needReinstall = false)
    (hdir : o.installDir = some d) (hdne : d ≠ "")
    (habs : noEntryUnder w.fs
      (createTempPaths o.name vi.version w.now).extractDir = true)
    (hp1 : evPre.any isFsMutation = false)
    (hp2 : evPre.any isDownloadReq = false)
    (hp3 : evPre.any isStoreWrite = false)
    (hp4 : evPre.any isWouldCopy = false) :
    ∃ r, mainPhase o w evPre = .ok r ∧
      r.fs = w.fs ∧ r.store = w.store ∧ r.exit = .updated ∧
      r.trace.any isFsMutation = false ∧
      r.trace.any isDownloadReq = false ∧
      r.trace.any isStoreWrite = false ∧
      r.trace.any isWouldCopy = false ∧
      Event.wouldDownload vi.tarballUrl
        (createTempPaths o.name vi.version w.now).tarballPath ∈ r.trace ∧
      Event.wouldExtract (createTempPaths o.name vi.version w.now).tarballPath
        (createTempPaths o.name vi.version w.now).extractDir ∈ r.trace ∧
      Event.wouldDisplay vi.version ∈ r.trace ∧
      (∀ f ∈ vi.upgear.files, fsExists w.fs (strJoin d f) = true →
        Event.wouldBackup (strJoin d f) ((strJoin d f) ++ ".bak") ∈ r.trace) := by
  obtain ⟨evI, hinner, hall, hwd, hwe, hwdi, hwb⟩ :=
    innerSection_dry w w.fs o vi (createTempPaths o.name vi.version w.now) d
      hdry hdir hdne habs
  have key : mainPhase o w evPre =
      .ok ⟨w.fs, w.store,
           evPre ++ ([] : List Event) ++
             [Event.fetchMetadataReq (buildPackageUrl o.name o.registryBase)] ++
             [Event.policyExtraction latest] ++
             (evI ++ dbg o.debug "Update completed successfully"),
           .updated, some (createTempPaths o.name vi.version w.now),
           false⟩ := by
    unfold mainPhase
    simp only []
    rw [hdry]
    simp only [Bool.not_true, Bool.false_eq_true, if_false]
    rw [hreg]
    simp only []
    rw [htag]
    simp only []
    rw [if_neg hne, hupd]
    simp only [Bool.not_true, Bool.false_eq_true, if_false]
    rw [hvi]
    simp only []
    rw [hnri]
    simp only [Bool.false_eq_true, if_false]
    rw [hinner, icf_ok_notemp]
  refine ⟨_, key, rfl, rfl, rfl, ?_, ?_, ?_, ?_, ?_, ?_, ?_, ?_⟩
  · simp only [List.any_append, List.any_cons, List.any_nil]
    rw [hp1, any_of_forall_false _ evI (fun ev hev => (hall ev hev).1)]
    cases hb : o.debug <;> simp [dbg, hb, isFsMutation]
  · simp only [List.any_append, List.any_cons, List.any_nil]
    rw [hp2, any_of_forall_false _ evI (fun ev hev => (hall ev hev).2.1)]
    cases hb : o.debug <;> simp [dbg, hb, isDownloadReq]
  · simp only [List.any_append, List.any_cons, List.any_nil]
    rw [hp3, any_of_forall_false _ evI (fun ev hev => (hall ev hev).2.2.2)]
    cases hb : o.debug <;> simp [dbg, hb, isStoreWrite]
  · simp only [List.any_append, List.any_cons, List.any_nil]
    rw [hp4, any_of_forall_false _ evI (fun ev hev => (hall ev hev).2.2.1)]
    cases hb : o.debug <;> simp [dbg, hb, isWouldCopy]
  · exact List.mem_append_right _ (List.mem_append_left _ hwd)
  · exact List.mem_append_right _ (List.mem_append_left _ hwe)
  · exact List.mem_append_right _ (List.mem_append_left _ hwdi)
  · intro f hf hex
    exact List.mem_append_right _ (List.mem_append_left _ (hwb f hf hex))

/-- Exit/warn facts lifted to `checkAndUpdateE` results. -/
theorem checkAndUpdateE_ok_exit_facts (opts : Options) (w : World)
    (r : RunResult) (h : checkAndUpdateE opts w = .ok r) :
    (∀ e, r.exit = .innerErrorCaught e →
      Event.warnMsg "Error during update process:" ∈ r.trace) ∧
    (∀ e, r.exit = .outerErrorCaught e →
      Event.warnMsg "Error during update check:" ∈ r.trace) := by
  unfold checkAndUpdateE at h
  simp only [] at h
  split at h
  · injection h with h2
    subst h2
    exact ⟨fun e he => Exit.noConfusion he, fun e he => Exit.noConfusion he⟩
  · split at h
    · injection h with h2
      subst h2
      exact ⟨fun e he => Exit.noConfusion he, fun e he => Exit.noConfusion he⟩
    · split at h
      · rename_i r' heq
        injection h with h2
        subst h2
        obtain ⟨hi, ho⟩ := mainPhase_ok_exit_facts _ _ _ _ heq
        exact ⟨hi, fun e he => absurd he (ho e)⟩
      · rename_i t heq
        injection h with h2
        subst h2
        refine ⟨fun e he => ?_, fun e he => ?_⟩
        · simp only [outerCatch] at he
          exact Exit.noConfusion he
        · simp [outerCatch, List.mem_append]

/-! ## Claims -/

/-- C3: error containment after the initial gate checks: the promise's
explicit rejection channel is never used (the run always returns
normally), and whenever the run ends having caught an inner-pipeline
or top-level failure, the corresponding warning was logged in the
trace. -/
theorem c3_error_containment (opts : Options) (w : World) :
    (checkAndUpdateE opts w).isOk = true ∧
    (∀ e, (checkAndUpdate opts w).exit = .innerErrorCaught e →
      Event.warnMsg "Error during update process:" ∈ (checkAndUpdate opts w).trace) ∧
    (∀ e, (checkAndUpdate opts w).exit = .outerErrorCaught e →
      Event.warnMsg "Error during update check:" ∈ (checkAndUpdate opts w).trace) := by
  have hok := checkAndUpdateE_isOk opts w
  cases hE : checkAndUpdateE opts w with
  | error e =>
    rw [hE] at hok
    exact absurd hok (by simp [Except.isOk, Except.toBool])
  | ok r =>
    rw [checkAndUpdate_of_ok opts w r hE]
    obtain ⟨hi, ho⟩ := checkAndUpdateE_ok_exit_facts opts w r hE
    exact ⟨rfl, hi, ho⟩

/-- Witness for C3: a failing download is caught, warned about, and
the run still exits normally. -/
theorem c3_error_containment_witness :
    (checkAndUpdateE optsBase wDownloadFail).isOk = true ∧
    (checkAndUpdate optsBase wDownloadFail).exit =
      .innerErrorCaught .downloadFailed ∧
    Event.warnMsg "Error during update process:" ∈
      (checkAndUpdate optsBase wDownloadFail).trace := by
  refine ⟨(c3_error_containment optsBase wDownloadFail).1, by decide, ?_⟩
  exact (c3_error_containment optsBase wDownloadFail).2.1 .downloadFailed
    (by decide)

/-- C2: the cleanup invariant: in every run that created scratch files
(the tarball download completed, which only happens outside dry run),
by the time the call returns neither the scratch tarball file nor the
scratch extraction directory exists — on every exit path, success or
failure. -/
theorem c2_cleanup_invariant (opts : Options) (w : World) (p : UpdatePaths)
    (h1 : (checkAndUpdate opts w).tempCreated = true)
    (h2 : (checkAndUpdate opts w).paths = some p) :
    fsExists (checkAndUpdate opts w).fs p.tarballPath = false ∧
    fsExists (checkAndUpdate opts w).fs p.extractDir = false := by
  have hok := checkAndUpdateE_isOk opts w
  cases hE : checkAndUpdateE opts w with
  | error e =>
    rw [hE] at hok
    exact absurd hok (by simp [Except.isOk, Except.toBool])
  | ok r =>
    rw [checkAndUpdate_of_ok opts w r hE] at h1 h2 ⊢
    unfold checkAndUpdateE at hE
    simp only [] at hE
    split at hE
    · injection hE with h3
      subst h3
      exact absurd h1 (by simp)
    · split at hE
      · injection hE with h3
        subst h3
        exact absurd h1 (by simp)
      · split at hE
        · rename_i r' heq
          injection hE with h3
          subst h3
          exact mainPhase_ok_cleanup _ _ _ _ _ heq h1 h2
        · rename_i t heq
          injection hE with h3
          subst h3
          have hfalse := mainPhase_error_temp _ _ _ _ heq
          simp only [outerCatch] at h1
          rw [hfalse] at h1
          exact Bool.noConfusion h1

/-- Witness for C2: the successful end-to-end update run creates and
then removes both scratch paths. -/
theorem c2_cleanup_invariant_witness :
    (checkAndUpdate optsBase wGood).tempCreated = true ∧
    (checkAndUpdate optsBase wGood).paths =
      some ⟨"/tmp/m-1.1.0-5.tgz", "/tmp/m-1.1.0-5-extract"⟩ ∧
    fsExists (checkAndUpdate optsBase wGood).fs "/tmp/m-1.1.0-5.tgz" = false ∧
    fsExists (checkAndUpdate optsBase wGood).fs "/tmp/m-1.1.0-5-extract" = false := by
  refine ⟨by decide, by decide, ?_, ?_⟩
  · exact (c2_cleanup_invariant optsBase wGood
      ⟨"/tmp/m-1.1.0-5.tgz", "/tmp/m-1.1.0-5-extract"⟩ (by decide) (by decide)).1
  · exact (c2_cleanup_invariant optsBase wGood
      ⟨"/tmp/m-1.1.0-5.tgz", "/tmp/m-1.1.0-5-extract"⟩ (by decide) (by decide)).2

/-- C6 counterexample: with the installation directory absent and an
applicable update, the run does abort the attempt (caught
`installDirMissing`), but files are written before that abort — the
scratch tarball is written and the timestamp store is updated —
refuting "no file is written or modified anywhere before the missing
installation directory aborts the update attempt". -/
theorem c6_counterexample :
    (checkAndUpdate optsNoDir wGood).exit =
      .innerErrorCaught .installDirMissing ∧
    (checkAndUpdate optsNoDir wGood).trace.any isFsWriteEv = true ∧
    (checkAndUpdate optsNoDir wGood).trace.any isStoreWrite = true := by decide

/-- C6 (amended): with the installation directory absent and an
applicable non-dry update, the run downloads and extracts but aborts
at the assertion before any backup or replace copy executes — no file
of the installation directory is touched — the abort is caught (fatal
only to the update attempt), and the scratch files it created are
removed before the call returns. -/
theorem c6_missing_install_dir (opts : Options) (w : World)
    (md : PackageMetadata) (latest : String) (vi : VersionInfo)
    (hci : isCI w.env = false) (hstore : w.store = none)
    (hreg : w.registry = some md)
    (htag : slookup md.distTags (resolveOptions opts).channel = some latest)
    (hne : latest ≠ "")
    (hupd : isUpdateNeeded (resolveOptions opts).version latest = true)
    (hevi : extractVersionInfo md latest = some vi)
    (hrein : vi.upgear.needReinstall = false)
    (hdry : (resolveOptions opts).dryRun = false)
    (hdir : (resolveOptions opts).installDir = none)
    (hdl : w.downloadOk = true) (htar : w.tarExtractOk = true)
    (hpkg : ("package", NodeKind.dir) ∈ w.extracted) :
    (checkAndUpdate opts w).exit = .innerErrorCaught .installDirMissing ∧
    (checkAndUpdate opts w).trace.any isFsCopy = false ∧
    (checkAndUpdate opts w).tempCreated = true ∧
    (∀ p, (checkAndUpdate opts w).paths = some p →
      fsExists (checkAndUpdate opts w).fs p.tarballPath = false ∧
      fsExists (checkAndUpdate opts w).fs p.extractDir = false) := by
  have hgate := intervalGate_false_of_none (resolveOptions opts) w hstore
  have hpre : (dbg (resolveOptions opts).debug
      "Starting update check with options:" ++
      (intervalGate (resolveOptions opts) w).2).any isFsCopy = false :=
    evPre_any_false _ _ _ (fun _ => rfl) (fun _ => rfl)
  obtain ⟨r, hm, hexit, htrace, htemp⟩ :=
    mainPhase_noInstallDir (resolveOptions opts) w _ md latest vi hreg htag
      hne hupd hevi hrein hdry hdir hdl htar hpkg hpre
  have hE : checkAndUpdateE opts w = .ok r := by
    unfold checkAndUpdateE
    simp only []
    rw [hci]
    simp only [Bool.and_false, Bool.false_eq_true, if_false, hgate]
    rw [hm]
  rw [checkAndUpdate_of_ok opts w r hE]
  refine ⟨hexit, htrace, htemp, fun p hp => ?_⟩
  exact mainPhase_ok_cleanup _ _ _ _ _ hm htemp hp

/-- Witness for C6 (amended) at the concrete missing-installDir run. -/
theorem c6_missing_install_dir_witness :
    (checkAndUpdate optsNoDir wGood).exit =
      .innerErrorCaught .installDirMissing ∧
    (checkAndUpdate optsNoDir wGood).trace.any isFsCopy = false ∧
    (checkAndUpdate optsNoDir wGood).tempCreated = true := by
  have := c6_missing_install_dir optsNoDir wGood mdGood "1.1.0"
    { version := "1.1.0", tarballUrl := "https://t",
      upgear := { files := ["dist", "package.json"], needReinstall := false,
                  changelogUrl := some "https://c" } }
    (by decide) rfl rfl (by decide) (by decide) (by decide) (by decide)
    (by decide) (by decide) (by decide) rfl rfl (by decide)
  exact ⟨this.1, this.2.1, this.2.2.1⟩

/-- C7 counterexample: when the policy itself declares `dist`, the
effective file list is a plain concatenation and `dist` appears twice
— refuting "each path appearing once". -/
theorem c7_counterexample :
    extractVersionInfo mdDup "1.1.0" = some viDup ∧
    viDup.upgear.files = ["dist", "package.json", "dist"] ∧
    viDup.upgear.files.count "dist" ≠ 1 := by decide

/-- C7 (amended): the effective file list is the fixed core paths
`dist` and `package.json` followed by the paths the policy declares
(plain concatenation — duplicates are not removed), so as a set it is
exactly the union of the core paths and the declared paths, and the
core paths are always included even when the policy omits them. -/
theorem c7_effective_files (md : PackageMetadata) (v : String)
    (rec : VersionRecord) (cfg : UpgearConfig) (vi : VersionInfo)
    (hrec : slookup md.versions v = some rec)
    (hcfg : rec.upgear = some cfg)
    (h : extractVersionInfo md v = some vi) :
    vi.upgear.files = ["dist", "package.json"] ++ cfg.files.getD [] ∧
    (∀ p, p ∈ vi.upgear.files ↔
      (p = "dist" ∨ p = "package.json" ∨ p ∈ cfg.files.getD [])) := by
  unfold extractVersionInfo at h
  rw [hrec] at h
  simp only [] at h
  cases ht : rec.tarball with
  | none =>
    rw [ht] at h
    exact Option.noConfusion h
  | some turl =>
    rw [ht] at h
    simp only [] at h
    by_cases hemp : turl = ""
    · rw [if_pos hemp] at h
      exact Option.noConfusion h
    · rw [if_neg hemp, hcfg] at h
      simp only [] at h
      rw [if_neg (by simp)] at h
      injection h with h2
      subst h2
      refine ⟨rfl, fun p => ?_⟩
      simp [List.mem_cons, List.mem_append]

/-- Witness for C7 (amended) on the duplicate-declaring policy. -/
theorem c7_effective_files_witness :
    viDup.upgear.files = ["dist", "package.json"] ++ cfgDup.files.getD [] ∧
    ("package.json" ∈ viDup.upgear.files ↔
      ("package.json" = "dist" ∨ "package.json" = "package.json" ∨
       "package.json" ∈ cfgDup.files.getD [])) := by
  have := c7_effective_files mdDup "1.1.0" recDup cfgDup viDup
    (by decide) (by decide) (by decide)
  exact ⟨this.1, this.2 "package.json"⟩

/-- C8 counterexample: an extraction root with exactly one top-level
entry, a directory named `wrapper`: the claim says that folder becomes
the effective source root, but the code resolves the source base to the
extraction root because the folder is not named `package`. -/
theorem c8_counterexample :
    childrenOf fsWrapper "/e" = ["wrapper"] ∧
    fsIsDir fsWrapper (strJoin "/e" "wrapper") = true ∧
    resolveSourceBase fsWrapper "/e" = "/e" ∧
    strJoin "/e" "wrapper" ≠ "/e" := by decide

/-- C8 (amended): the effective source root of the replace step is the
`package` subdirectory of the extraction root exactly when it exists
there as a directory, and the extraction root itself otherwise — the
wrapper folder's being the sole top-level entry plays no role: every
per-path source `copyUpdatedFiles` consults is resolved against that
base. -/
theorem c8_source_root (w : World) (fs : FS) (files : List String)
    (extractDir installDir : String) (dryRun : Bool) :
    ((copyUpdatedFiles w fs files extractDir installDir dryRun).2.filterMap
        eventSource) =
      files.map (fun f => strJoin
        (if fsIsDir fs (strJoin extractDir "package") then
          strJoin extractDir "package" else extractDir) f) := by
  unfold copyUpdatedFiles resolveSourceBase
  simp only []
  have hx : (fsExists fs (strJoin extractDir "package") &&
      fsIsDir fs (strJoin extractDir "package")) =
      fsIsDir fs (strJoin extractDir "package") := by
    unfold fsExists fsIsDir
    cases hk : fsLookup fs (strJoin extractDir "package") with
    | none => rfl
    | some k => cases k <;> rfl
  rw [hx]
  exact copyFilesLoop_sources w _ installDir dryRun files fs

/-- C9: per-path failure isolation: every declared path is processed by
both the backup loop and the replace loop — each path yields its own
per-path event — whatever per-path failures occur, so one path's error
never aborts the remaining paths and neither loop propagates a
failure. -/
theorem c9_per_path_isolation (w : World) (fs : FS) (files : List String)
    (installDir extractDir : String) (dryRun : Bool) :
    (∀ f ∈ files,
      (backupFiles w fs installDir dryRun files).2.any
        (backupEvFor installDir f) = true) ∧
    (∀ f ∈ files,
      (copyUpdatedFiles w fs files extractDir installDir dryRun).2.any
        (copyEvFor (resolveSourceBase fs extractDir) installDir f) = true) := by
  constructor
  · intro f hf
    exact backupFiles_processes w installDir dryRun files fs f hf
  · intro f hf
    unfold copyUpdatedFiles
    exact copyFilesLoop_processes w _ installDir dryRun files fs f hf

/-- Witness for C9: with the backup of `dist` and the replace of
`package.json` failing, both paths are still processed by both loops. -/
theorem c9_per_path_isolation_witness :
    (backupFiles wPartialFail wPartialFail.fs "/i" false
      ["dist", "package.json"]).2.any (backupEvFor "/i" "package.json") = true ∧
    (copyUpdatedFiles wPartialFail wPartialFail.fs ["dist", "package.json"]
      "/e" "/i" false).2.any
      (copyEvFor (resolveSourceBase wPartialFail.fs "/e") "/i" "dist") = true := by
  constructor
  · exact (c9_per_path_isolation wPartialFail wPartialFail.fs
      ["dist", "package.json"] "/i" "/e" false).1 "package.json" (by decide)
  · exact (c9_per_path_isolation wPartialFail wPartialFail.fs
      ["dist", "package.json"] "/i" "/e" false).2 "dist" (by decide)

/-- C1: with the gates passed and the channel resolved to `latest`,
`checkAndUpdate` proceeds past the version decision into policy
extraction if and only if both the running and the latest version are
valid semantic versions and `latest` is strictly greater under
semantic-version precedence; otherwise the run exits `upToDate` with
the filesystem untouched — no update occurs. -/
theorem c1_version_decision (opts : Options) (w : World)
    (md : PackageMetadata) (latest : String)
    (hci : isCI w.env = false) (hstore : w.store = none)
    (hreg : w.registry = some md)
    (htag : slookup md.distTags (resolveOptions opts).channel = some latest)
    (hne : latest ≠ "") :
    ((checkAndUpdate opts w).trace.any isPolicyExtraction =
      (semverValidB (resolveOptions opts).version && semverValidB latest &&
       semverGtStr latest (resolveOptions opts).version)) ∧
    (isUpdateNeeded (resolveOptions opts).version latest = false →
      (checkAndUpdate opts w).exit = .upToDate ∧
      (checkAndUpdate opts w).fs = w.fs) := by
  have hgate := intervalGate_false_of_none (resolveOptions opts) w hstore
  have hpre : (dbg (resolveOptions opts).debug
      "Starting update check with options:" ++
      (intervalGate (resolveOptions opts) w).2).any isPolicyExtraction = false :=
    evPre_any_false _ _ _ (fun _ => rfl) (fun _ => rfl)
  rw [← isUpdateNeeded_eq]
  unfold checkAndUpdate checkAndUpdateE
  simp only []
  rw [hci]
  simp only [Bool.and_false, Bool.false_eq_true, if_false, hgate]
  cases hupd : isUpdateNeeded (resolveOptions opts).version latest with
  | false =>
    cases hm : mainPhase (resolveOptions opts) w
        (dbg (resolveOptions opts).debug "Starting update check with options:" ++
          (intervalGate (resolveOptions opts) w).2) with
    | ok r =>
      obtain ⟨he, hf, hp⟩ :=
        mainPhase_ok_noupdate _ _ _ _ _ _ hreg htag hne hupd hpre hm
      exact ⟨hp, fun _ => ⟨he, hf⟩⟩
    | error t =>
      exact absurd hm (fun hm =>
        mainPhase_error_noupdate _ _ _ _ _ _ hreg htag hne hupd hm)
  | true =>
    cases hm : mainPhase (resolveOptions opts) w
        (dbg (resolveOptions opts).debug "Starting update check with options:" ++
          (intervalGate (resolveOptions opts) w).2) with
    | ok r =>
      refine ⟨?_, fun hfalse => Bool.noConfusion hfalse⟩
      exact mainPhase_ok_policy _ _ _ _ _ _ hreg htag hne hupd hm
    | error t =>
      refine ⟨?_, fun hfalse => Bool.noConfusion hfalse⟩
      have := mainPhase_error_policy _ _ _ _ _ _ hreg htag hne hupd hm
      simp [outerCatch, List.any_append, this]

/-- Witness for C1 at current version 1.0.0 and latest 1.1.0: both
sides of the equivalence are true on this input. -/
theorem c1_version_decision_witness :
    (checkAndUpdate optsBase wGood).trace.any isPolicyExtraction =
      (semverValidB "1.0.0" && semverValidB "1.1.0" &&
       semverGtStr "1.1.0" "1.0.0") ∧
    (semverValidB "1.0.0" && semverValidB "1.1.0" &&
     semverGtStr "1.1.0" "1.0.0") = true := by
  constructor
  · exact (c1_version_decision optsBase wGood mdGood "1.1.0"
      (by decide) rfl rfl (by decide) (by decide)).1
  · decide

/-- C10: the CI-environment skip takes precedence over dry-run: for
every run where `skipOnCI` resolves to true (the default) and a
recognised CI environment variable is set truthy, `checkAndUpdate`
returns immediately with the filesystem and timestamp store untouched
and a trace holding only debug lines — no registry request, no
timestamp read or write, and no dry-run action logging — even when
`dryRun` is true (the statement quantifies over all options, dry-run
included). -/
theorem c10_ci_skip (opts : Options) (w : World)
    (hskip : (resolveOptions opts).skipOnCI = true) (hci : isCI w.env = true) :
    (checkAndUpdate opts w).exit = .skippedCI ∧
    (checkAndUpdate opts w).fs = w.fs ∧
    (checkAndUpdate opts w).store = w.store ∧
    (checkAndUpdate opts w).trace.all isDebugEvent = true := by
  unfold checkAndUpdate checkAndUpdateE
  simp only []
  rw [hskip, hci]
  simp only [Bool.and_self, if_true]
  cases hb : (resolveOptions opts).debug <;> simp [dbg, isDebugEvent, hb]

/-- Witness for C10 at a concrete dry-run option set inside CI. -/
theorem c10_ci_skip_witness :
    (resolveOptions optsDry).skipOnCI = true ∧ isCI wCI.env = true ∧
    (checkAndUpdate optsDry wCI).exit = .skippedCI ∧
    (checkAndUpdate optsDry wCI).trace.all isDebugEvent = true := by
  refine ⟨by decide, by decide, ?_, ?_⟩
  · exact (c10_ci_skip optsDry wCI (by decide) (by decide)).1
  · exact (c10_ci_skip optsDry wCI (by decide) (by decide)).2.2.2

/-- C4: the interval gate.  Outside CI: (a) with a positive interval
`I`, a prior check at `T > 0` and the clock at `T + I - 1`, the run
exits `skippedInterval` before any registry request, leaving
filesystem and store untouched; (b) with the clock at `T + I` or
later the registry request is issued; (c) with no recorded prior check
(read time 0) the request is always issued; (d) likewise when the
interval is not positive; (e) likewise in dry run, whatever the store
holds — the gate is bypassed. -/
theorem c4_interval_gate (opts : Options) (w : World) (T I : Int)
    (hci : isCI w.env = false) :
    ((resolveOptions opts).dryRun = false →
     (resolveOptions opts).updateCheckIntervalMs = I → 0 < I →
     readLastCheckTimestamp w.store (resolveOptions opts).name = T → 0 < T →
     w.now = T + I - 1 →
     (checkAndUpdate opts w).exit = .skippedInterval ∧
     (checkAndUpdate opts w).trace.any isFetchReq = false ∧
     (checkAndUpdate opts w).fs = w.fs ∧
     (checkAndUpdate opts w).store = w.store) ∧
    ((resolveOptions opts).updateCheckIntervalMs = I →
     readLastCheckTimestamp w.store (resolveOptions opts).name = T →
     T + I ≤ w.now →
     (checkAndUpdate opts w).trace.any isFetchReq = true) ∧
    (readLastCheckTimestamp w.store (resolveOptions opts).name = 0 →
     (checkAndUpdate opts w).trace.any isFetchReq = true) ∧
    ((resolveOptions opts).updateCheckIntervalMs ≤ 0 →
     (checkAndUpdate opts w).trace.any isFetchReq = true) ∧
    ((resolveOptions opts).dryRun = true →
     (checkAndUpdate opts w).trace.any isFetchReq = true) := by
  refine ⟨?_, ?_, ?_, ?_, ?_⟩
  · intro hdry hI hIpos hT hTpos hnow
    have hgate : intervalGate (resolveOptions opts) w =
        (true, [Event.storeRead (resolveOptions opts).name]) := by
      unfold intervalGate
      simp only []
      rw [if_pos ⟨hdry, by rw [hI]; exact hIpos⟩,
          if_pos ⟨by rw [hT]; exact hTpos, by rw [hT, hnow, hI]; omega⟩]
    unfold checkAndUpdate checkAndUpdateE
    simp only []
    rw [hci, hgate]
    simp only [Bool.and_false, Bool.false_eq_true, if_false]
    refine ⟨rfl, ?_, rfl, rfl⟩
    cases hb : (resolveOptions opts).debug <;>
      simp [dbg, isFetchReq, List.any_append, hb]
  · intro hI hT helapsed
    exact proceeds_fetch opts w hci
      (intervalGate_false_of_elapsed _ _ T I hI hT helapsed)
  · intro hzero
    exact proceeds_fetch opts w hci (intervalGate_false_of_zeroT _ _ hzero)
  · intro hnonpos
    exact proceeds_fetch opts w hci (intervalGate_false_of_nonpos _ _ hnonpos)
  · intro hdry
    exact proceeds_fetch opts w hci (intervalGate_false_of_dry _ _ hdry)

/-- Witness for C4: with interval 10 and a prior check at 100, the run
at time 109 skips before the registry request and the run at time 110
issues it. -/
theorem c4_interval_gate_witness :
    ((checkAndUpdate optsInt wInt).exit = .skippedInterval ∧
     (checkAndUpdate optsInt wInt).trace.any isFetchReq = false) ∧
    (checkAndUpdate optsInt wIntLater).trace.any isFetchReq = true := by
  refine ⟨⟨?_, ?_⟩, ?_⟩
  · exact ((c4_interval_gate optsInt wInt 100 10 (by decide)).1 (by decide)
      (by decide) (by decide) (by decide) (by decide) (by decide)).1
  · exact ((c4_interval_gate optsInt wInt 100 10 (by decide)).1 (by decide)
      (by decide) (by decide) (by decide) (by decide) (by decide)).2.1
  · exact (c4_interval_gate optsInt wIntLater 100 10 (by decide)).2.1
      (by decide) (by decide) (by decide)

/-- C5 counterexample: in a fully applicable dry run the update is
previewed end to end, yet no "would copy" line is ever logged for the
replace step — the same scenario outside dry run really copies files
(so there were copy actions to describe); the dry run instead reports
every declared path's source as missing, because nothing was extracted
into the scratch directory. -/
theorem c5_counterexample :
    (checkAndUpdate optsDry wGood).exit = .updated ∧
    (checkAndUpdate optsDry wGood).trace.any isWouldCopy = false ∧
    Event.copySourceMissing "/tmp/m-1.1.0-5-extract/dist" ∈
      (checkAndUpdate optsDry wGood).trace ∧
    (checkAndUpdate optsBase wGood).trace.any isFsCopy = true := by
  decide

/-- C5: the dry-run frame property, amended.  A dry run reaching an
applicable update (valid greater channel version, extracted policy, no
reinstall flag, an installation directory, and a fresh scratch
location) mutates nothing: it returns filesystem and timestamp store
unchanged and its trace records no filesystem mutation, no archive
download and no store write.  It logs the would-download, would-extract
and would-display lines and a would-backup line for each declared path
present in the installation directory — but, contrary to the claim, it
does not log a line for the copy actions it would otherwise take: no
would-copy line ever appears (see `c5_counterexample`: the sources are
reported missing instead, since nothing was extracted). -/
theorem c5_dry_run_frame (opts : Options) (w : World)
    (md : PackageMetadata) (latest : String) (vi : VersionInfo) (d : String)
    (hdry : (resolveOptions opts).dryRun = true)
    (hci : isCI w.env = false)
    (hreg : w.registry = some md)
    (htag : slookup md.distTags (resolveOptions opts).channel = some latest)
    (hne : latest ≠ "")
    (hupd : isUpdateNeeded (resolveOptions opts).version latest = true)
    (hvi : extractVersionInfo md latest = some vi)
    (hnri : vi.upgear.needReinstall = false)
    (hdir : (resolveOptions opts).installDir = some d) (hdne : d ≠ "")
    (habs : noEntryUnder w.fs
      (createTempPaths (resolveOptions opts).name vi.version w.now).extractDir
        = true) :
    (checkAndUpdate opts w).exit = .updated ∧
    (checkAndUpdate opts w).fs = w.fs ∧
    (checkAndUpdate opts w).store = w.store ∧
    (checkAndUpdate opts w).trace.any isFsMutation = false ∧
    (checkAndUpdate opts w).trace.any isDownloadReq = false ∧
    (checkAndUpdate opts w).trace.any isStoreWrite = false ∧
    (checkAndUpdate opts w).trace.any isWouldCopy = false ∧
    Event.wouldDownload vi.tarballUrl
      (createTempPaths (resolveOptions opts).name vi.version w.now).tarballPath
        ∈ (checkAndUpdate opts w).trace ∧
    Event.wouldExtract
      (createTempPaths (resolveOptions opts).name vi.version w.now).tarballPath
      (createTempPaths (resolveOptions opts).name vi.version w.now).extractDir
        ∈ (checkAndUpdate opts w).trace ∧
    Event.wouldDisplay vi.version ∈ (checkAndUpdate opts w).trace ∧
    (∀ f ∈ vi.upgear.files, fsExists w.fs (strJoin d f) = true →
      Event.wouldBackup (strJoin d f) ((strJoin d f) ++ ".bak") ∈
        (checkAndUpdate opts w).trace) := by
  have hp1 := evPre_any_false (resolveOptions opts) w isFsMutation
    (fun s => rfl) (fun n => rfl)
  have hp2 := evPre_any_false (resolveOptions opts) w isDownloadReq
    (fun s => rfl) (fun n => rfl)
  have hp3 := evPre_any_false (resolveOptions opts) w isStoreWrite
    (fun s => rfl) (fun n => rfl)
  have hp4 := evPre_any_false (resolveOptions opts) w isWouldCopy
    (fun s => rfl) (fun n => rfl)
  obtain ⟨r, hm, hfs, hstore, hexit, ha1, ha2, ha3, ha4, hwd, hwe, hwdi, hwb⟩ :=
    mainPhase_dry (resolveOptions opts) w _ md latest vi d hdry hreg htag hne
      hupd hvi hnri hdir hdne habs hp1 hp2 hp3 hp4
  have hgate : (intervalGate (resolveOptions opts) w).1 = false :=
    intervalGate_false_of_dry _ _ hdry
  have hcu : checkAndUpdate opts w = r := by
    unfold checkAndUpdate checkAndUpdateE
    simp only []
    rw [hci]
    simp only [Bool.and_false, Bool.false_eq_true, if_false]
    rw [hgate]
    simp only [Bool.false_eq_true, if_false]
    rw [hm]
  rw [hcu]
  exact ⟨hexit, hfs, hstore, ha1, ha2, ha3, ha4, hwd, hwe, hwdi, hwb⟩

/-- C5 witness: the amended dry-run frame property holds of the
concrete applicable-update scenario. -/
theorem c5_dry_run_frame_witness :
    (checkAndUpdate optsDry wGood).exit = .updated ∧
    (checkAndUpdate optsDry wGood).fs = wGood.fs ∧
    (checkAndUpdate optsDry wGood).store = wGood.store ∧
    (checkAndUpdate optsDry wGood).trace.any isFsMutation = false ∧
    (checkAndUpdate optsDry wGood).trace.any isDownloadReq = false ∧
    (checkAndUpdate optsDry wGood).trace.any isStoreWrite = false ∧
    (checkAndUpdate optsDry wGood).trace.any isWouldCopy = false ∧
    Event.wouldDisplay "1.1.0" ∈ (checkAndUpdate optsDry wGood).trace := by
  obtain ⟨h1, h2, h3, h4, h5, h6, h7, _, _, h10, _⟩ :=
    c5_dry_run_frame optsDry wGood mdGood "1.1.0" viGood "/i" (by decide)
      (by decide) rfl (by decide) (by decide) (by decide) (by decide) rfl rfl
      (by decide) (by decide)
  exact ⟨h1, h2, h3, h4, h5, h6, h7, h10⟩

end Upgear
